import Mathlib

/-! # IoT Central organization resource: embedding and verification

Shallow embedding of

* `internal/services/iotcentral/client/client.go`
  (`NewClient`, `Client.OrganizationsClient`, `Client.RolesClient`),
* `internal/services/iotcentral/iotcentral_organization_resource.go`
  (`Arguments`, `Create`, `Read`, `Update`, `Delete`),
* the organization blocks of the acceptance-test fixtures.

Go pointers are `Option`s, a nil dereference is the outcome `panic`, a Go
`(result, err)` pair is a record with an optional error, and every call that
leaves the function (authorizer request, client configuration, remote REST
call, `SetID`, `Encode`, `MarkAsGone`) is recorded, in order, as an `Event`.
The remote service is a state machine over an arbitrary state type `σ`.
Package `parse` (`ParseBaseUrl`, `NewNestedItemID`, `ParseNestedItemID`) lies
outside the embedded files and is a parameter of the environment.
-/

namespace IotCentral

/-! ## Data model -/

/-- Go `error`, identified with its message. -/
abbrev Error := String

/-- The data-plane model `dataplane.Organization`: the three pointer fields the
resource reads and writes. -/
structure Organization where
  ID : Option String
  DisplayName : Option String
  Parent : Option String
  deriving DecidableEq, Repr

/-- The struct `IotCentralOrganizationModel` (configuration and encoded state). -/
structure IotCentralOrganizationModel where
  SubDomain : String
  OrganizationId : String
  DisplayName : String
  Parent : String
  deriving DecidableEq, Repr

/-- The type `parse.NestedItemId`: the two fields the resource reads. -/
structure NestedItemId where
  SubDomain : String
  Id : String
  deriving DecidableEq, Repr

/-- The value built by `environments.NewApiEndpoint(name, endpoint, appId)`. -/
structure ApiEndpoint where
  name : String
  endpoint : String
  appId : Option String
  deriving DecidableEq, Repr

/-- An authorizer as returned by `authorizerFunc`, identified by a label. -/
abbrev Authorizer := String

/-- The wrapper `authWrapper.AutorestAuthorizer(a)`. -/
structure AutorestAuthorizer where
  inner : Authorizer
  deriving DecidableEq, Repr

/-- Which generated data-plane client a factory builds. -/
inductive ClientKind where
  | organizations
  | roles
  deriving DecidableEq, Repr

/-- The value built by `iotcentralDataplane.NewOrganizationsClient(subdomain)` or
`NewRolesClient(subdomain)`. -/
structure DataplaneClient where
  kind : ClientKind
  subdomain : String
  deriving DecidableEq, Repr

/-- Calls that leave the embedded functions, in the order they are made. -/
inductive Event where
  | authorizerRequested (api : ApiEndpoint)
  | configureClient (c : DataplaneClient) (a : AutorestAuthorizer)
  | configureApps (baseURI : String) (a : Authorizer)
  | remoteCreate (subdomain : String) (id : String) (body : Organization)
  | remoteGet (subdomain : String) (id : String)
  | remoteUpdate (subdomain : String) (id : String) (body : Organization) (ifMatch : String)
  | remoteRemove (subdomain : String) (id : String)
  | setID (id : NestedItemId)
  | encode (state : IotCentralOrganizationModel)
  | markAsGone (id : NestedItemId)
  deriving DecidableEq, Repr

/-- How a resource function ends: `return nil`, `return err`, or a nil-pointer
dereference. -/
inductive Outcome where
  | ok
  | err (e : Error)
  | panic
  deriving DecidableEq, Repr

/-- A Go `(result Organization, err error)` pair. -/
structure OrgResp where
  result : Organization
  err : Option Error
  deriving DecidableEq, Repr

/-! ## `client/client.go` -/

/-- The part of `common.ClientOptions` that `NewClient` uses. -/
structure ClientOptions where
  /-- `o.Environment.ResourceManager` -/
  ResourceManager : String
  /-- `o.Authorizers.ResourceManager` -/
  ResourceManagerAuthorizer : Authorizer
  /-- `o.Authorizers.AuthorizerFunc` -/
  AuthorizerFunc : ApiEndpoint → Except Error Authorizer
  /-- Result of `apps.NewAppsClientWithBaseURI`: its error, if any. -/
  newAppsClientErr : String → Option Error

/-- The struct `Client`. `configureClientFunc` is `o.ConfigureClient`; a call of
it is the event `configureClient`. -/
structure Client where
  AppsClient : String
  authorizerFunc : ApiEndpoint → Except Error Authorizer
  endpoint : String

/-- The function `NewClient`: events made and `(*Client, error)`. -/
def NewClient (o : ClientOptions) : List Event × Except Error Client :=
  match o.newAppsClientErr o.ResourceManager with
  | some err => ([], .error ("building Apps Client: " ++ err))
  | none =>
    ([.configureApps o.ResourceManager o.ResourceManagerAuthorizer],
     .ok { AppsClient := o.ResourceManager
           authorizerFunc := o.AuthorizerFunc
           endpoint := "https://apps.azureiotcentral.com" })

/-- Go `%q` of a string without characters that need escaping. -/
def quoted (s : String) : String := "\"" ++ s ++ "\""

/-- Shared body of `OrganizationsClient` and `RolesClient`, which differ only in
the generated client they construct. -/
def Client.dataplaneClient (c : Client) (kind : ClientKind) (subdomain : String) :
    List Event × Except Error DataplaneClient :=
  let api : ApiEndpoint := { name := "IotCentral", endpoint := c.endpoint, appId := none }
  match c.authorizerFunc api with
  | .error err =>
    ([.authorizerRequested api],
     .error ("obtaining auth token for " ++ quoted c.endpoint ++ ": " ++ err))
  | .ok iotCentralAuth =>
    let client : DataplaneClient := { kind := kind, subdomain := subdomain }
    ([.authorizerRequested api, .configureClient client ⟨iotCentralAuth⟩], .ok client)

/-- The method `Client.OrganizationsClient`. -/
def Client.OrganizationsClient (c : Client) (subdomain : String) :
    List Event × Except Error DataplaneClient :=
  c.dataplaneClient .organizations subdomain

/-- The method `Client.RolesClient`. -/
def Client.RolesClient (c : Client) (subdomain : String) :
    List Event × Except Error DataplaneClient :=
  c.dataplaneClient .roles subdomain

/-! ## `iotcentral_organization_resource.go` -/

/-- The remote organizations API as a state machine: each call maps the remote
state to a response and a new remote state. -/
structure Remote (σ : Type) where
  create : σ → String → String → Organization → OrgResp × σ
  get : σ → String → String → OrgResp × σ
  update : σ → String → String → Organization → String → OrgResp × σ
  remove : σ → String → String → Option Error × σ

/-- Everything the resource functions call that is outside the two embedded
files. -/
structure Env (σ : Type) where
  /-- `metadata.Client.IoTCentral` -/
  client : Client
  remote : Remote σ
  ParseBaseUrl : String → Except Error String
  NewNestedItemID : String → String → String → Except Error NestedItemId
  ParseNestedItemID : String → Except Error NestedItemId
  NestedItemTypeOrganization : String
  /-- `ID()` of a nested item id, the string `SetID` stores. -/
  idString : NestedItemId → String
  /-- `%s` of a `*NestedItemId`. -/
  fmtIdPtr : NestedItemId → String
  /-- `%s` of a `NestedItemId` value. -/
  fmtIdVal : NestedItemId → String
  /-- Return value of `metadata.Encode`. -/
  encodeErr : IotCentralOrganizationModel → Option Error
  /-- Return value of `metadata.MarkAsGone`. -/
  markAsGoneErr : NestedItemId → Option Error

/-- What `sdk.ResourceMetaData` gives a resource function to read: the result of
`Decode` and `ResourceData.HasChange`. -/
structure MetaData where
  decode : Except Error IotCentralOrganizationModel
  hasChange : String → Bool

/-- Result of running a resource function: the remote state and the stored
resource ID afterwards, the events made, and how the function ended. -/
structure Run (σ : Type) where
  remote : σ
  id : String
  events : List Event
  outcome : Outcome
  deriving DecidableEq

/-- Go `error` return value as an outcome. -/
def Outcome.ofErr : Option Error → Outcome
  | none => .ok
  | some e => .err e

/-- The request body `Create` builds (lines 84-90). -/
def createModel (state : IotCentralOrganizationModel) : Organization :=
  let model : Organization := { ID := none, DisplayName := some state.DisplayName, Parent := none }
  if state.Parent ≠ "" then { model with Parent := some state.Parent } else model

/-- The function `IotCentralOrganizationResource.Create`. -/
def Create {σ : Type} (env : Env σ) (md : MetaData) (st : σ) (rid : String) : Run σ :=
  match md.decode with
  | .error err => ⟨st, rid, [], .err err⟩
  | .ok state =>
    match env.client.OrganizationsClient state.SubDomain with
    | (evs, .error err) => ⟨st, rid, evs, .err ("creating organization client: " ++ err)⟩
    | (evs, .ok orgClient) =>
      let model := createModel state
      let call := Event.remoteCreate orgClient.subdomain state.OrganizationId model
      match env.remote.create st orgClient.subdomain state.OrganizationId model with
      | (⟨_, some err⟩, st1) =>
        ⟨st1, rid, evs ++ [call], .err ("creating " ++ state.OrganizationId ++ ": " ++ err)⟩
      | (⟨org, none⟩, st1) =>
        match env.ParseBaseUrl state.SubDomain with
        | .error err => ⟨st1, rid, evs ++ [call], .err err⟩
        | .ok baseUrl =>
          match org.ID with
          | none => ⟨st1, rid, evs ++ [call], .panic⟩
          | some orgID =>
            match env.NewNestedItemID baseUrl env.NestedItemTypeOrganization orgID with
            | .error err => ⟨st1, rid, evs ++ [call], .err err⟩
            | .ok orgId => ⟨st1, env.idString orgId, evs ++ [call, .setID orgId], .ok⟩

/-- The function `IotCentralOrganizationResource.Read`. `MarkAsGone` clears the
stored resource ID. -/
def Read {σ : Type} (env : Env σ) (st : σ) (rid : String) : Run σ :=
  match env.ParseNestedItemID rid with
  | .error err => ⟨st, rid, [], .err err⟩
  | .ok id =>
    match env.client.OrganizationsClient id.SubDomain with
    | (evs, .error err) => ⟨st, rid, evs, .err ("creating organization client: " ++ err)⟩
    | (evs, .ok orgClient) =>
      let call := Event.remoteGet orgClient.subdomain id.Id
      match env.remote.get st orgClient.subdomain id.Id with
      | (⟨org, some err⟩, st1) =>
        if org.ID = none ∨ org.ID = some "" then
          ⟨st1, "", evs ++ [call, .markAsGone id], Outcome.ofErr (env.markAsGoneErr id)⟩
        else
          ⟨st1, rid, evs ++ [call], .err ("retrieving " ++ env.fmtIdVal id ++ ": " ++ err)⟩
      | (⟨org, none⟩, st1) =>
        match org.ID, org.DisplayName with
        | none, _ => ⟨st1, rid, evs ++ [call], .panic⟩
        | some _, none => ⟨st1, rid, evs ++ [call], .panic⟩
        | some orgID, some displayName =>
          let state : IotCentralOrganizationModel :=
            { SubDomain := id.SubDomain, OrganizationId := orgID,
              DisplayName := displayName, Parent := "" }
          let state :=
            match org.Parent with
            | some parent => { state with Parent := parent }
            | none => state
          ⟨st1, rid, evs ++ [call, .encode state], Outcome.ofErr (env.encodeErr state)⟩

/-- The body `Update` sends: the organization `Get` returned with the changed
fields overwritten (lines 177-187). -/
def updateModel (md : MetaData) (state : IotCentralOrganizationModel)
    (existing : Organization) : Organization :=
  let existing :=
    if md.hasChange "display_name" then
      { existing with DisplayName := some state.DisplayName }
    else existing
  if md.hasChange "parent" then
    if state.Parent ≠ "" then { existing with Parent := some state.Parent } else existing
  else existing

/-- The function `IotCentralOrganizationResource.Update`. -/
def Update {σ : Type} (env : Env σ) (md : MetaData) (st : σ) (rid : String) : Run σ :=
  match env.ParseNestedItemID rid with
  | .error err => ⟨st, rid, [], .err err⟩
  | .ok id =>
    match md.decode with
    | .error err => ⟨st, rid, [], .err err⟩
    | .ok state =>
      match env.client.OrganizationsClient id.SubDomain with
      | (evs, .error err) => ⟨st, rid, evs, .err ("creating organization client: " ++ err)⟩
      | (evs, .ok orgClient) =>
        let getCall := Event.remoteGet orgClient.subdomain id.Id
        match env.remote.get st orgClient.subdomain id.Id with
        | (⟨_, some err⟩, st1) =>
          ⟨st1, rid, evs ++ [getCall], .err ("retrieving " ++ env.fmtIdPtr id ++ ": " ++ err)⟩
        | (⟨existing, none⟩, st1) =>
          let existing := updateModel md state existing
          match existing.ID with
          | none => ⟨st1, rid, evs ++ [getCall], .panic⟩
          | some existingID =>
            let call := Event.remoteUpdate orgClient.subdomain existingID existing "*"
            match env.remote.update st1 orgClient.subdomain existingID existing "*" with
            | (⟨_, some err⟩, st2) =>
              ⟨st2, rid, evs ++ [getCall, call],
                .err ("updating " ++ env.fmtIdPtr id ++ ": " ++ err)⟩
            | (⟨_, none⟩, st2) => ⟨st2, rid, evs ++ [getCall, call], .ok⟩

/-- The function `IotCentralOrganizationResource.Delete`. -/
def Delete {σ : Type} (env : Env σ) (st : σ) (rid : String) : Run σ :=
  match env.ParseNestedItemID rid with
  | .error err => ⟨st, rid, [], .err err⟩
  | .ok id =>
    match env.client.OrganizationsClient id.SubDomain with
    | (evs, .error err) => ⟨st, rid, evs, .err ("creating organization client: " ++ err)⟩
    | (evs, .ok orgClient) =>
      let call := Event.remoteRemove orgClient.subdomain id.Id
      match env.remote.remove st orgClient.subdomain id.Id with
      | (some err, st1) =>
        ⟨st1, rid, evs ++ [call], .err ("deleting " ++ env.fmtIdPtr id ++ ": " ++ err)⟩
      | (none, st1) => ⟨st1, rid, evs ++ [call], .ok⟩

/-! ## Derived descriptions of single steps -/

/-- The endpoint value a client asks its authorizer function for. -/
def Client.api (c : Client) : ApiEndpoint :=
  { name := "IotCentral", endpoint := c.endpoint, appId := none }

/-- The model `Read` encodes for a successful response with an ID and a display
name (lines 137-145). -/
def readState (id : NestedItemId) (orgID displayName : String) (parent : Option String) :
    IotCentralOrganizationModel :=
  { SubDomain := id.SubDomain, OrganizationId := orgID, DisplayName := displayName,
    Parent := parent.getD "" }

/-- How `Update` ends given the error of the remote update call. -/
def updateOutcome {σ : Type} (env : Env σ) (id : NestedItemId) : Option Error → Outcome
  | none => .ok
  | some err => .err ("updating " ++ env.fmtIdPtr id ++ ": " ++ err)

/-- How `Delete` ends given the error of the remote remove call. -/
def deleteOutcome {σ : Type} (env : Env σ) (id : NestedItemId) : Option Error → Outcome
  | none => .ok
  | some err => .err ("deleting " ++ env.fmtIdPtr id ++ ": " ++ err)

/-! ## A concrete environment

An in-memory remote that stores what it is sent, and a textual composite ID
`<sub-domain>/<item id>`; used to run the functions on concrete inputs. -/

/-- Remote state of the in-memory service: `(sub-domain, id, organization)`. -/
abbrev Store := List (String × String × Organization)

/-- Drop the entry of `(sub, id)` from a store. -/
def Store.drop (st : Store) (sub id : String) : Store :=
  st.filter (fun e => !(e.1 == sub && e.2.1 == id))

/-- Find the entry of `(sub, id)` in a store. -/
def Store.lookup (st : Store) (sub id : String) : Option Organization :=
  (st.find? (fun e => e.1 == sub && e.2.1 == id)).map (fun e => e.2.2)

/-- An in-memory organizations service that stores what it is sent. -/
def memRemote : Remote Store where
  create st sub id body :=
    let org : Organization := { body with ID := some id }
    (⟨org, none⟩, (sub, id, org) :: st.drop sub id)
  get st sub id :=
    match st.lookup sub id with
    | some org => (⟨org, none⟩, st)
    | none => (⟨⟨none, none, none⟩, some "404 Not Found"⟩, st)
  update st sub id body _ :=
    match st.lookup sub id with
    | some _ => (⟨body, none⟩, (sub, id, body) :: st.drop sub id)
    | none => (⟨⟨none, none, none⟩, some "404 Not Found"⟩, st)
  remove st sub id :=
    match st.lookup sub id with
    | some _ => (none, st.drop sub id)
    | none => (some "404 Not Found", st)

/-- Parse `<sub-domain>/<item id>`. -/
def memParseNestedItemID (input : String) : Except Error NestedItemId :=
  match input.toList.span (fun ch => ch != '/') with
  | (sub, '/' :: item) =>
    if sub = [] ∨ item = [] then .error "invalid nested item id"
    else .ok ⟨String.mk sub, String.mk item⟩
  | _ => .error "invalid nested item id"

/-- A client whose authorizer function always succeeds. -/
def memClient : Client where
  AppsClient := "https://management.azure.com"
  authorizerFunc := fun _ => .ok "token"
  endpoint := "https://apps.azureiotcentral.com"

/-- The concrete environment over a given remote. -/
def memEnvOver {σ : Type} (remote : Remote σ) : Env σ where
  client := memClient
  remote := remote
  ParseBaseUrl := fun sub => if sub = "" then .error "empty sub domain" else .ok sub
  NewNestedItemID := fun base _ item =>
    if item = "" then .error "empty item id" else .ok ⟨base, item⟩
  ParseNestedItemID := memParseNestedItemID
  NestedItemTypeOrganization := "organizations"
  idString := fun id => id.SubDomain ++ "/" ++ id.Id
  fmtIdPtr := fun id => id.SubDomain ++ "/" ++ id.Id
  fmtIdVal := fun id => id.SubDomain ++ "/" ++ id.Id
  encodeErr := fun _ => none
  markAsGoneErr := fun _ => none

/-- The concrete environment over the in-memory remote. -/
def memEnv : Env Store := memEnvOver memRemote

/-- Metadata of a plan with the given configuration and changed keys. -/
def planOf (cfg : IotCentralOrganizationModel) (changed : List String) : MetaData where
  decode := .ok cfg
  hasChange := fun key => changed.contains key

/-- The endpoint every data-plane client asks an authorizer for. -/
def iotCentralApi : ApiEndpoint :=
  { name := "IotCentral", endpoint := "https://apps.azureiotcentral.com", appId := none }


/-- An event made for a parsed composite ID: a client is configured for, and
remote calls go to, the parsed sub-domain; `Get` and `Remove` name the parsed
item id; there is no remote create call. -/
def Event.usesParsed (id : NestedItemId) : Event → Prop
  | .configureClient c _ => c.subdomain = id.SubDomain
  | .remoteCreate _ _ _ => False
  | .remoteGet sub i => sub = id.SubDomain ∧ i = id.Id
  | .remoteUpdate sub _ _ _ => sub = id.SubDomain
  | .remoteRemove sub i => sub = id.SubDomain ∧ i = id.Id
  | _ => True

/-- A remote whose `Get` succeeds with an organization that has no ID; the
other calls fail. -/
def nilIdRemote : Remote Unit where
  create _ _ _ _ := (⟨⟨none, none, none⟩, some "unsupported"⟩, ())
  get _ _ _ := (⟨⟨none, some "Org", none⟩, none⟩, ())
  update _ _ _ _ _ := (⟨⟨none, none, none⟩, some "unsupported"⟩, ())
  remove _ _ _ := (some "unsupported", ())

/-- A `ClientOptions` value whose Apps client builds and whose authorizer function
succeeds. -/
def memOptions : ClientOptions where
  ResourceManager := "https://management.azure.com"
  ResourceManagerAuthorizer := "arm-token"
  AuthorizerFunc := fun _ => .ok "token"
  newAppsClientErr := fun _ => none

/-! ## Schema and acceptance-test fixtures -/

/-- The fields of `pluginsdk.Schema` that `Arguments` sets. -/
structure Schema where
  ValueType : String
  Required : Bool := false
  Optional : Bool := false
  ForceNew : Bool := false
  deriving DecidableEq, Repr

/-- The method `IotCentralOrganizationResource.Arguments`. -/
def Arguments : List (String × Schema) :=
  [("sub_domain", { ValueType := "TypeString", Required := true, ForceNew := true }),
   ("organization_id", { ValueType := "TypeString", Required := true, ForceNew := true }),
   ("display_name", { ValueType := "TypeString", Required := true }),
   ("parent", { ValueType := "TypeString", Optional := true })]

/-- The method `IotCentralOrganizationResource.ResourceType`. -/
def ResourceType : String := "azurerm_iotcentral_organization"

/-- The fields of `acceptance.TestData` the fixtures render. -/
structure TestData where
  RandomInteger : Nat
  LocationsPrimary : String

/-- Join lines with newlines, as in the raw string literals of the fixtures. -/
def unlines : List String → String
  | [] => ""
  | [l] => l
  | l :: ls => l ++ "\n" ++ unlines ls

/-- The fixture `IoTCentralOrganizationResource.template`. -/
def IoTCentralOrganizationResource.template (data : TestData) : String :=
  unlines
    ["",
     "resource \"azurerm_resource_group\" \"test\" \x7b",
     "  name     = \"acctestRG-" ++ toString data.RandomInteger ++ "\"",
     "  location = \"" ++ data.LocationsPrimary ++ "\"",
     "\x7d",
     "",
     "resource \"azurerm_iotcentral_application\" \"test\" \x7b",
     "  name                = \"acctest-iotcentralapp-" ++ toString data.RandomInteger ++ "\"",
     "  location            = azurerm_resource_group.test.location",
     "  resource_group_name = azurerm_resource_group.test.name",
     "  sub_domain          = \"subdomain-" ++ toString data.RandomInteger ++ "\"",
     "  display_name        = \"some-display-name\"",
     "  sku                 = \"ST0\"",
     "\x7d",
     ""]

/-- The fixture `IoTCentralOrganizationResource.basic`. -/
def IoTCentralOrganizationResource.basic (data : TestData) : String :=
  unlines
    ["",
     "provider \"azurerm\" \x7b",
     "  features \x7b\x7d",
     "\x7d",
     "",
     IoTCentralOrganizationResource.template data,
     "",
     "resource \"azurerm_iotcentral_organization\" \"test\" \x7b",
     "  sub_domain   = azurerm_iotcentral_application.test.sub_domain",
     "  display_name = \"Org basic\"",
     "\x7d",
     ""]

/-- The fixture `IoTCentralOrganizationResource.complete`. -/
def IoTCentralOrganizationResource.complete (data : TestData) : String :=
  unlines
    ["",
     "provider \"azurerm\" \x7b",
     "  features \x7b\x7d",
     "\x7d",
     "",
     IoTCentralOrganizationResource.template data,
     "",
     "resource \"azurerm_iotcentral_organization\" \"test_parent\" \x7b",
     "  sub_domain   = azurerm_iotcentral_application.test.sub_domain",
     "  display_name = \"Org parent\"",
     "\x7d",
     "",
     "resource \"azurerm_iotcentral_organization\" \"test\" \x7b",
     "  sub_domain   = azurerm_iotcentral_application.test.sub_domain",
     "  display_name = \"Org child\"",
     "  parent       = azurerm_iotcentral_organization.test_parent.organization_id",
     "\x7d",
     ""]

/-- The fixture `IotCentralUserResource.templateComplete`. -/
def IotCentralUserResource.templateComplete (data : TestData) : String :=
  unlines
    ["",
     "resource \"azurerm_resource_group\" \"test\" \x7b",
     "  name     = \"acctestRG-" ++ toString data.RandomInteger ++ "\"",
     "  location = \"" ++ data.LocationsPrimary ++ "\"",
     "\x7d",
     "",
     "resource \"azurerm_iotcentral_application\" \"test\" \x7b",
     "  name                = \"acctest-iotcentralapp-" ++ toString data.RandomInteger ++ "\"",
     "  location            = azurerm_resource_group.test.location",
     "  resource_group_name = azurerm_resource_group.test.name",
     "  sub_domain          = \"subdomain-" ++ toString data.RandomInteger ++ "\"",
     "  display_name        = \"some-display-name\"",
     "  sku                 = \"ST0\"",
     "\x7d",
     "",
     "resource \"azurerm_iotcentral_organization\" \"test\" \x7b",
     "  iotcentral_application_id = azurerm_iotcentral_application.test.id",
     "  organization_id           = \"org-test-id\"",
     "  display_name              = \"Org\"",
     "\x7d",
     ""]

/-- Split text into its lines. -/
def splitLines (cs : List Char) : List (List Char) :=
  cs.foldr
    (fun c acc =>
      if c = '\n' then [] :: acc
      else match acc with
        | [] => [[c]]
        | l :: ls => (c :: l) :: ls)
    [[]]

/-- Whether `pre` starts `l`. -/
def startsWith : List Char → List Char → Bool
  | [], _ => true
  | _ :: _, [] => false
  | p :: ps, c :: cs => p == c && startsWith ps cs

/-- A character of an HCL argument name. -/
def isNameChar (c : Char) : Bool := c.isAlphanum || c == '_'

/-- The argument name of a line `name = expression`, if the line is one. -/
def argumentName (line : List Char) : Option String :=
  let body := line.dropWhile (fun c => c == ' ')
  let name := body.takeWhile isNameChar
  let rest := (body.dropWhile isNameChar).dropWhile (fun c => c == ' ')
  match name, rest with
  | [], _ => none
  | _ :: _, '=' :: _ => some (String.mk name)
  | _ :: _, _ => none

/-- The opening of a block of the organization resource. -/
def blockHeader : List Char := ("resource \"" ++ ResourceType ++ "\" ").toList

/-- Scan lines for blocks of the organization resource; inside a block, collect
the argument names up to the closing brace. -/
def scanBlocks : List (List Char) → Option (List String) → List (List String)
  | [], _ => []
  | l :: ls, none =>
    if startsWith blockHeader l then scanBlocks ls (some []) else scanBlocks ls none
  | l :: ls, some names =>
    if l.dropWhile (fun c => c == ' ') = ['\x7d'] then names :: scanBlocks ls none
    else
      match argumentName l with
      | some n => scanBlocks ls (some (names ++ [n]))
      | none => scanBlocks ls (some names)

/-- The argument names of each organization block of a rendered configuration. -/
def organizationBlocks (config : String) : List (List String) :=
  scanBlocks (splitLines config.toList) none

/-- Names of the arguments `Arguments` marks `Required`. -/
def requiredArguments : List String :=
  (Arguments.filter (fun e => e.2.Required)).map (fun e => e.1)

/-- Names of the arguments `Arguments` declares. -/
def declaredArguments : List String := Arguments.map (fun e => e.1)

/-- A block is a valid configuration of the resource: it supplies every required
argument and uses only declared ones. -/
def validBlock (names : List String) : Bool :=
  requiredArguments.all (fun r => names.contains r) &&
    names.all (fun n => declaredArguments.contains n)

/-! ## The acceptance test's existence check -/

/-- A Go `(*bool, error)` result, or a nil-pointer dereference. -/
inductive ExistsResult where
  | value (b : Bool)
  | err (e : Error)
  | panic
  deriving DecidableEq, Repr

/-- The method `IoTCentralOrganizationResource.Exists` of the acceptance test:
the events it makes and what it returns. The last line is
`utils.Bool(resp.ID != nil || *resp.ID == "")`; the right operand of the `||` is
evaluated only when the left one is false. -/
def IoTCentralOrganizationResource.Exists {σ : Type} (env : Env σ) (st : σ)
    (stateID : String) : List Event × ExistsResult :=
  match env.ParseNestedItemID stateID with
  | .error err => ([], .err err)
  | .ok id =>
    match env.client.OrganizationsClient id.SubDomain with
    | (evs, .error err) => (evs, .err ("creating organization client: " ++ err))
    | (evs, .ok orgClient) =>
      let call := Event.remoteGet orgClient.subdomain id.Id
      match (env.remote.get st orgClient.subdomain id.Id).1 with
      | ⟨_, some err⟩ =>
        (evs ++ [call], .err ("retrieving " ++ env.fmtIdPtr id ++ ": " ++ err))
      | ⟨resp, none⟩ =>
        if resp.ID ≠ none then (evs ++ [call], .value true)
        else
          match resp.ID with
          | none => (evs ++ [call], .panic)
          | some respID => (evs ++ [call], .value (decide (respID = "")))

/-- A remote whose `Get` succeeds with an organization that has an ID but no
display name; the other calls fail. -/
def nilNameRemote : Remote Unit where
  create _ _ _ _ := (⟨⟨none, none, none⟩, some "unsupported"⟩, ())
  get _ _ id := (⟨⟨some id, none, none⟩, none⟩, ())
  update _ _ _ _ _ := (⟨⟨none, none, none⟩, some "unsupported"⟩, ())
  remove _ _ _ := (some "unsupported", ())

/-- A remote whose `Get` fails with the given error and organization. -/
def failingGetRemote (org : Organization) (err : Error) : Remote Unit where
  create _ _ _ _ := (⟨⟨none, none, none⟩, some "unsupported"⟩, ())
  get _ _ _ := (⟨org, some err⟩, ())
  update _ _ _ _ _ := (⟨⟨none, none, none⟩, some "unsupported"⟩, ())
  remove _ _ _ := (some "unsupported", ())

/-- Whether an event is a remote `Get` call. -/
def Event.isGet : Event → Bool
  | .remoteGet _ _ => true
  | _ => false

/-- Whether an event is a remote `Update` call. -/
def Event.isUpdate : Event → Bool
  | .remoteUpdate _ _ _ _ => true
  | _ => false

/-! ## `channel/model_directlinespeechchannel.go`

JSON text is represented by the JSON value it denotes; the members of an object
are kept in the order they are written. Go strings are sequences of Unicode
characters. -/

/-- A JSON value. A number is kept as its literal. -/
inductive Json where
  | null
  | bool (b : Bool)
  | num (literal : String)
  | str (s : String)
  | arr (items : List Json)
  | obj (members : List (String × Json))
  deriving Repr

/-- Lexicographic order on character sequences, by code point; on strings this is
the byte order of their UTF-8 encoding, by which `json.Marshal` sorts map keys. -/
def lessChars : List Char → List Char → Bool
  | [], [] => false
  | [], _ :: _ => true
  | _ :: _, [] => false
  | a :: as, b :: bs =>
    if a.toNat < b.toNat then true
    else if b.toNat < a.toNat then false
    else lessChars as bs

/-- The order of map keys in the output of `json.Marshal`. -/
def keyLess (a b : String) : Bool := lessChars a.toList b.toList

/-- The assignment `m[k] = v` on a Go `map[string]interface{}`, kept as the list
of its entries in key order: an existing entry of `k` is replaced. -/
def setKey (k : String) (v : Json) : List (String × Json) → List (String × Json)
  | [] => [(k, v)]
  | (k1, v1) :: rest =>
    if k = k1 then (k, v) :: rest
    else if keyLess k k1 then (k, v) :: (k1, v1) :: rest
    else (k1, v1) :: setKey k v rest

mutual
/-- The value `json.Unmarshal` stores in an `interface{}` for a JSON value, written
as the JSON `json.Marshal` makes of it again: an object becomes a map (keys
sorted, a repeated key keeps its last value) and a number becomes a `float64`,
whose literal is the parameter `float64`. The literals `json.Marshal` writes for
Go's numeric types are all in the range of `float64`, so the conversion is total. -/
def toInterface (float64 : String → String) : Json → Json
  | .null => .null
  | .bool b => .bool b
  | .num n => .num (float64 n)
  | .str s => .str s
  | .arr items => .arr (toInterfaceItems float64 items)
  | .obj members => .obj (toInterfaceMap float64 members [])
/-- The function `toInterface` on the items of an array. -/
def toInterfaceItems (float64 : String → String) : List Json → List Json
  | [] => []
  | x :: xs => toInterface float64 x :: toInterfaceItems float64 xs
/-- The map `json.Unmarshal` builds from the members of an object, added in the
order they are written to the entries already there. -/
def toInterfaceMap (float64 : String → String) :
    List (String × Json) → List (String × Json) → List (String × Json)
  | [], acc => acc
  | (k, v) :: rest, acc =>
    toInterfaceMap float64 rest (setKey k (toInterface float64 v) acc)
end

/-- The struct `DirectLineSpeechChannelProperties`, declared in another file of the
package: a value of it is identified with what `json.Marshal` makes of it, a JSON
value or an error. -/
structure DirectLineSpeechChannelProperties where
  marshalled : Except Error Json

/-- The struct `DirectLineSpeechChannel`. -/
structure DirectLineSpeechChannel where
  Properties : Option DirectLineSpeechChannelProperties
  Etag : Option String
  Location : Option String
  ProvisioningState : Option String

/-- The member a struct field tagged `omitempty` contributes: none when the
pointer is nil. -/
def member (key : String) : Option Json → List (String × Json)
  | none => []
  | some v => [(key, v)]

/-- The call `json.Marshal(wrapped)`: the members of the object written for the
struct, in the order of its fields. -/
def marshalWrapper (s : DirectLineSpeechChannel) : Except Error (List (String × Json)) :=
  let strings :=
    member "etag" (s.Etag.map .str) ++ member "location" (s.Location.map .str) ++
      member "provisioningState" (s.ProvisioningState.map .str)
  match s.Properties with
  | none => .ok strings
  | some p =>
    match p.marshalled with
    | .error err => .error err
    | .ok v => .ok (("properties", v) :: strings)

/-- The call `json.Unmarshal(encoded, &decoded)` on the members of an object, into
a `map[string]interface{}`. -/
def unmarshalMap (float64 : String → String) (encoded : List (String × Json)) :
    Except Error (List (String × Json)) :=
  .ok (toInterfaceMap float64 encoded [])

/-- The call `json.Marshal(decoded)` on a `map[string]interface{}` that
`json.Unmarshal` built: an object with the entries in key order. -/
def marshalMap (decoded : List (String × Json)) : Except Error Json := .ok (.obj decoded)

/-- The method `DirectLineSpeechChannel.MarshalJSON`. -/
def DirectLineSpeechChannel.MarshalJSON (float64 : String → String)
    (s : DirectLineSpeechChannel) : Except Error Json :=
  match marshalWrapper s with
  | .error err => .error ("marshaling DirectLineSpeechChannel: " ++ err)
  | .ok encoded =>
    match unmarshalMap float64 encoded with
    | .error err => .error ("unmarshaling DirectLineSpeechChannel: " ++ err)
    | .ok decoded =>
      let decoded := setKey "channelName" (.str "DirectLineSpeechChannel") decoded
      match marshalMap decoded with
      | .error err => .error ("re-marshaling DirectLineSpeechChannel: " ++ err)
      | .ok encoded => .ok encoded

/-- The JSON member names of `DirectLineSpeechChannel` and the discriminator. -/
def channelKeys : List String :=
  ["channelName", "etag", "location", "properties", "provisioningState"]

/-- A channel with properties, an etag and a provisioning state, and no location. -/
def sampleChannel : DirectLineSpeechChannel where
  Properties := some ⟨.ok (.obj [("isEnabled", .bool true),
    ("cognitiveServiceRegion", .str "westus")])⟩
  Etag := some "W/1"
  Location := none
  ProvisioningState := some "Succeeded"

end IotCentral

/-! ## Shared lemmas -/

namespace IotCentral

theorem dataplaneClient_ok (c : Client) (kind : ClientKind) (sub : String) (a : Authorizer)
    (h : c.authorizerFunc c.api = .ok a) :
    c.dataplaneClient kind sub =
      ([.authorizerRequested c.api, .configureClient ⟨kind, sub⟩ ⟨a⟩], .ok ⟨kind, sub⟩) := by
  simp only [Client.api] at h
  simp only [Client.dataplaneClient, Client.api, h]

theorem dataplaneClient_error (c : Client) (kind : ClientKind) (sub : String) (e : Error)
    (h : c.authorizerFunc c.api = .error e) :
    c.dataplaneClient kind sub =
      ([.authorizerRequested c.api],
       .error ("obtaining auth token for " ++ quoted c.endpoint ++ ": " ++ e)) := by
  simp only [Client.api] at h
  simp only [Client.dataplaneClient, Client.api, h]

theorem organizationsClient_ok (c : Client) (sub : String) (a : Authorizer)
    (h : c.authorizerFunc c.api = .ok a) :
    c.OrganizationsClient sub =
      ([.authorizerRequested c.api, .configureClient ⟨.organizations, sub⟩ ⟨a⟩],
       .ok ⟨.organizations, sub⟩) :=
  dataplaneClient_ok c .organizations sub a h

theorem organizationsClient_error (c : Client) (sub : String) (e : Error)
    (h : c.authorizerFunc c.api = .error e) :
    c.OrganizationsClient sub =
      ([.authorizerRequested c.api],
       .error ("obtaining auth token for " ++ quoted c.endpoint ++ ": " ++ e)) :=
  dataplaneClient_error c .organizations sub e h

/-- What a successful `Create` did: every step on the way to `return nil`. -/
theorem create_ok_inv {σ : Type} (env : Env σ) (md : MetaData) (st : σ) (rid : String)
    (h : (Create env md st rid).outcome = .ok) :
    ∃ state a org st1 baseUrl orgID orgId,
      md.decode = .ok state ∧
      env.client.authorizerFunc env.client.api = .ok a ∧
      env.remote.create st state.SubDomain state.OrganizationId (createModel state)
        = (⟨org, none⟩, st1) ∧
      env.ParseBaseUrl state.SubDomain = .ok baseUrl ∧
      org.ID = some orgID ∧
      env.NewNestedItemID baseUrl env.NestedItemTypeOrganization orgID = .ok orgId ∧
      Create env md st rid =
        ⟨st1, env.idString orgId,
         [.authorizerRequested env.client.api,
          .configureClient ⟨.organizations, state.SubDomain⟩ ⟨a⟩,
          .remoteCreate state.SubDomain state.OrganizationId (createModel state),
          .setID orgId], .ok⟩ := by
  cases hd : md.decode with
  | error e => simp [Create, hd] at h
  | ok state =>
    cases ha : env.client.authorizerFunc env.client.api with
    | error e => simp [Create, hd, organizationsClient_error _ _ _ ha] at h
    | ok a =>
      rcases hc : env.remote.create st state.SubDomain state.OrganizationId (createModel state)
        with ⟨⟨org, _ | e⟩, st1⟩
      · cases hb : env.ParseBaseUrl state.SubDomain with
        | error e => simp [Create, hd, organizationsClient_ok _ _ _ ha, hc, hb] at h
        | ok baseUrl =>
          cases ho : org.ID with
          | none => simp [Create, hd, organizationsClient_ok _ _ _ ha, hc, hb, ho] at h
          | some orgID =>
            cases hn : env.NewNestedItemID baseUrl env.NestedItemTypeOrganization orgID with
            | error e => simp [Create, hd, organizationsClient_ok _ _ _ ha, hc, hb, ho, hn] at h
            | ok orgId =>
              exact ⟨state, a, org, st1, baseUrl, orgID, orgId, rfl, rfl, hc, hb, ho, hn,
                by simp [Create, hd, organizationsClient_ok _ _ _ ha, hc, hb, ho, hn]⟩
      · simp [Create, hd, organizationsClient_ok _ _ _ ha, hc] at h

theorem read_success {σ : Type} (env : Env σ) (st st1 : σ) (rid : String) (id : NestedItemId)
    (a : Authorizer) (org : Organization) (orgID displayName : String)
    (hp : env.ParseNestedItemID rid = .ok id)
    (ha : env.client.authorizerFunc env.client.api = .ok a)
    (hg : env.remote.get st id.SubDomain id.Id = (⟨org, none⟩, st1))
    (hi : org.ID = some orgID) (hn : org.DisplayName = some displayName) :
    Read env st rid =
      ⟨st1, rid,
       [.authorizerRequested env.client.api,
        .configureClient ⟨.organizations, id.SubDomain⟩ ⟨a⟩,
        .remoteGet id.SubDomain id.Id,
        .encode (readState id orgID displayName org.Parent)],
       Outcome.ofErr (env.encodeErr (readState id orgID displayName org.Parent))⟩ := by
  cases hpar : org.Parent <;>
    simp [Read, hp, organizationsClient_ok _ _ _ ha, hg, hi, hn, hpar, readState]

theorem read_nil_deref {σ : Type} (env : Env σ) (st st1 : σ) (rid : String) (id : NestedItemId)
    (a : Authorizer) (org : Organization)
    (hp : env.ParseNestedItemID rid = .ok id)
    (ha : env.client.authorizerFunc env.client.api = .ok a)
    (hg : env.remote.get st id.SubDomain id.Id = (⟨org, none⟩, st1))
    (hnil : org.ID = none ∨ org.DisplayName = none) :
    Read env st rid =
      ⟨st1, rid,
       [.authorizerRequested env.client.api,
        .configureClient ⟨.organizations, id.SubDomain⟩ ⟨a⟩,
        .remoteGet id.SubDomain id.Id],
       .panic⟩ := by
  cases hi : org.ID with
  | none => simp [Read, hp, organizationsClient_ok _ _ _ ha, hg, hi]
  | some orgID =>
    have hn : org.DisplayName = none := by
      rcases hnil with h | h
      · simp [hi] at h
      · exact h
    simp [Read, hp, organizationsClient_ok _ _ _ ha, hg, hi, hn]

theorem update_nil_deref {σ : Type} (env : Env σ) (md : MetaData) (st st1 : σ) (rid : String)
    (id : NestedItemId) (state : IotCentralOrganizationModel) (a : Authorizer)
    (existing : Organization)
    (hp : env.ParseNestedItemID rid = .ok id)
    (hd : md.decode = .ok state)
    (ha : env.client.authorizerFunc env.client.api = .ok a)
    (hg : env.remote.get st id.SubDomain id.Id = (⟨existing, none⟩, st1))
    (hi : existing.ID = none) :
    Update env md st rid =
      ⟨st1, rid,
       [.authorizerRequested env.client.api,
        .configureClient ⟨.organizations, id.SubDomain⟩ ⟨a⟩,
        .remoteGet id.SubDomain id.Id],
       .panic⟩ := by
  have hu : (updateModel md state existing).ID = none := by
    simp only [updateModel]
    split_ifs <;> simp [hi]
  simp [Update, hp, hd, organizationsClient_ok _ _ _ ha, hg, hu]

theorem update_calls {σ : Type} (env : Env σ) (md : MetaData) (st st1 : σ) (rid : String)
    (id : NestedItemId) (state : IotCentralOrganizationModel) (a : Authorizer)
    (existing : Organization) (existingID : String)
    (hp : env.ParseNestedItemID rid = .ok id)
    (hd : md.decode = .ok state)
    (ha : env.client.authorizerFunc env.client.api = .ok a)
    (hg : env.remote.get st id.SubDomain id.Id = (⟨existing, none⟩, st1))
    (hi : existing.ID = some existingID) :
    Update env md st rid =
      ⟨(env.remote.update st1 id.SubDomain existingID (updateModel md state existing) "*").2,
       rid,
       [.authorizerRequested env.client.api,
        .configureClient ⟨.organizations, id.SubDomain⟩ ⟨a⟩,
        .remoteGet id.SubDomain id.Id,
        .remoteUpdate id.SubDomain existingID (updateModel md state existing) "*"],
       updateOutcome env id
         (env.remote.update st1 id.SubDomain existingID
            (updateModel md state existing) "*").1.err⟩ := by
  have hu : (updateModel md state existing).ID = some existingID := by
    simp only [updateModel]
    split_ifs <;> simp [hi]
  rcases hr : env.remote.update st1 id.SubDomain existingID (updateModel md state existing) "*"
    with ⟨⟨res, _ | e⟩, st2⟩ <;>
    simp [Update, hp, hd, organizationsClient_ok _ _ _ ha, hg, hu, hr, updateOutcome]

theorem delete_calls {σ : Type} (env : Env σ) (st : σ) (rid : String)
    (id : NestedItemId) (a : Authorizer)
    (hp : env.ParseNestedItemID rid = .ok id)
    (ha : env.client.authorizerFunc env.client.api = .ok a) :
    Delete env st rid =
      ⟨(env.remote.remove st id.SubDomain id.Id).2, rid,
       [.authorizerRequested env.client.api,
        .configureClient ⟨.organizations, id.SubDomain⟩ ⟨a⟩,
        .remoteRemove id.SubDomain id.Id],
       deleteOutcome env id (env.remote.remove st id.SubDomain id.Id).1⟩ := by
  rcases hr : env.remote.remove st id.SubDomain id.Id with ⟨_ | e, st1⟩ <;>
    simp [Delete, hp, organizationsClient_ok _ _ _ ha, hr, deleteOutcome]

theorem updateModel_ID (md : MetaData) (state : IotCentralOrganizationModel)
    (existing : Organization) : (updateModel md state existing).ID = existing.ID := by
  simp only [updateModel]
  split_ifs <;> rfl

theorem updateModel_displayName_changed (md : MetaData) (state : IotCentralOrganizationModel)
    (existing : Organization) (h : md.hasChange "display_name" = true) :
    (updateModel md state existing).DisplayName = some state.DisplayName := by
  simp only [updateModel, h]
  split_ifs <;> rfl

theorem updateModel_parent_set (md : MetaData) (state : IotCentralOrganizationModel)
    (existing : Organization) (h : md.hasChange "parent" = true) (hne : state.Parent ≠ "") :
    (updateModel md state existing).Parent = some state.Parent := by
  simp only [updateModel, h]
  split_ifs <;> rfl

theorem updateModel_parent_unset (md : MetaData) (state : IotCentralOrganizationModel)
    (existing : Organization) (h : md.hasChange "parent" = true) (he : state.Parent = "") :
    (updateModel md state existing).Parent = existing.Parent := by
  simp only [updateModel, h]
  split_ifs <;> first | rfl | contradiction

/-- After a successful `Get`, every remote update call `Update` makes sends
`updateModel` to the ID of the organization `Get` returned, and that call is made
exactly when that ID is non-nil. -/
theorem update_sends {σ : Type} (env : Env σ) (md : MetaData) (st st1 : σ) (rid : String)
    (id : NestedItemId) (state : IotCentralOrganizationModel) (a : Authorizer)
    (existing : Organization)
    (hp : env.ParseNestedItemID rid = .ok id)
    (hd : md.decode = .ok state)
    (ha : env.client.authorizerFunc env.client.api = .ok a)
    (hg : env.remote.get st id.SubDomain id.Id = (⟨existing, none⟩, st1)) :
    (∀ sub i body m, Event.remoteUpdate sub i body m ∈ (Update env md st rid).events →
      sub = id.SubDomain ∧ existing.ID = some i ∧ body = updateModel md state existing ∧
        m = "*") ∧
    (∀ existingID, existing.ID = some existingID →
      (Update env md st rid).events =
        [.authorizerRequested env.client.api,
         .configureClient ⟨.organizations, id.SubDomain⟩ ⟨a⟩,
         .remoteGet id.SubDomain id.Id,
         .remoteUpdate id.SubDomain existingID (updateModel md state existing) "*"]) := by
  constructor
  · intro sub i body m hmem
    cases hi : existing.ID with
    | none =>
      rw [update_nil_deref env md st st1 rid id state a existing hp hd ha hg hi] at hmem
      simp at hmem
    | some existingID =>
      rw [update_calls env md st st1 rid id state a existing existingID hp hd ha hg hi] at hmem
      simp at hmem
      obtain ⟨h1, h2, h3, h4⟩ := hmem
      exact ⟨h1, by rw [h2], h3, h4⟩
  · intro existingID hi
    rw [update_calls env md st st1 rid id state a existing existingID hp hd ha hg hi]

/-- A successful `Update` made the remote update call. -/
theorem update_ok_sent {σ : Type} (env : Env σ) (md : MetaData) (st st1 : σ) (rid : String)
    (id : NestedItemId) (state : IotCentralOrganizationModel) (a : Authorizer)
    (existing : Organization)
    (hp : env.ParseNestedItemID rid = .ok id)
    (hd : md.decode = .ok state)
    (ha : env.client.authorizerFunc env.client.api = .ok a)
    (hg : env.remote.get st id.SubDomain id.Id = (⟨existing, none⟩, st1))
    (hok : (Update env md st rid).outcome = .ok) :
    ∃ existingID, existing.ID = some existingID ∧ (Update env md st rid).id = rid ∧
      Event.remoteUpdate id.SubDomain existingID (updateModel md state existing) "*"
        ∈ (Update env md st rid).events := by
  cases hi : existing.ID with
  | none =>
    rw [update_nil_deref env md st st1 rid id state a existing hp hd ha hg hi] at hok
    simp at hok
  | some existingID =>
    refine ⟨existingID, rfl, ?_, ?_⟩
    · rw [update_calls env md st st1 rid id state a existing existingID hp hd ha hg hi]
    · rw [update_calls env md st st1 rid id state a existing existingID hp hd ha hg hi]
      simp

theorem read_uses_parsed {σ : Type} (env : Env σ) (st : σ) (rid : String)
    (id : NestedItemId) (hp : env.ParseNestedItemID rid = .ok id) :
    ∀ ev ∈ (Read env st rid).events, ev.usesParsed id := by
  cases ha : env.client.authorizerFunc env.client.api with
  | error e => simp [Read, hp, organizationsClient_error _ _ _ ha, Event.usesParsed]
  | ok a =>
    rcases hg : env.remote.get st id.SubDomain id.Id with ⟨⟨org, _ | e⟩, st1⟩
    · cases hi : org.ID with
      | none =>
        rw [read_nil_deref env st st1 rid id a org hp ha hg (Or.inl hi)]
        simp [Event.usesParsed]
      | some orgID =>
        cases hn : org.DisplayName with
        | none =>
          rw [read_nil_deref env st st1 rid id a org hp ha hg (Or.inr hn)]
          simp [Event.usesParsed]
        | some displayName =>
          rw [read_success env st st1 rid id a org orgID displayName hp ha hg hi hn]
          simp [Event.usesParsed]
    · by_cases hgone : org.ID = none ∨ org.ID = some ""
      · simp [Read, hp, organizationsClient_ok _ _ _ ha, hg, hgone, Event.usesParsed]
      · simp [Read, hp, organizationsClient_ok _ _ _ ha, hg, hgone, Event.usesParsed]

theorem update_uses_parsed {σ : Type} (env : Env σ) (md : MetaData) (st : σ) (rid : String)
    (id : NestedItemId) (hp : env.ParseNestedItemID rid = .ok id) :
    ∀ ev ∈ (Update env md st rid).events, ev.usesParsed id := by
  cases hd : md.decode with
  | error e => simp [Update, hp, hd]
  | ok state =>
    cases ha : env.client.authorizerFunc env.client.api with
    | error e => simp [Update, hp, hd, organizationsClient_error _ _ _ ha, Event.usesParsed]
    | ok a =>
      rcases hg : env.remote.get st id.SubDomain id.Id with ⟨⟨existing, _ | e⟩, st1⟩
      · cases hi : existing.ID with
        | none =>
          rw [update_nil_deref env md st st1 rid id state a existing hp hd ha hg hi]
          simp [Event.usesParsed]
        | some existingID =>
          rw [update_calls env md st st1 rid id state a existing existingID hp hd ha hg hi]
          simp [Event.usesParsed]
      · simp [Update, hp, hd, organizationsClient_ok _ _ _ ha, hg, Event.usesParsed]

theorem delete_uses_parsed {σ : Type} (env : Env σ) (st : σ) (rid : String)
    (id : NestedItemId) (hp : env.ParseNestedItemID rid = .ok id) :
    ∀ ev ∈ (Delete env st rid).events, ev.usesParsed id := by
  cases ha : env.client.authorizerFunc env.client.api with
  | error e => simp [Delete, hp, organizationsClient_error _ _ _ ha, Event.usesParsed]
  | ok a =>
    rw [delete_calls env st rid id a hp ha]
    simp [Event.usesParsed]

/-- Once the organizations client is obtained, `Read` makes the remote `Get` call
for the parsed ID. -/
theorem read_calls_get {σ : Type} (env : Env σ) (st : σ) (rid : String)
    (id : NestedItemId) (a : Authorizer) (hp : env.ParseNestedItemID rid = .ok id)
    (ha : env.client.authorizerFunc env.client.api = .ok a) :
    Event.remoteGet id.SubDomain id.Id ∈ (Read env st rid).events := by
  rcases hg : env.remote.get st id.SubDomain id.Id with ⟨⟨org, _ | e⟩, st1⟩
  · cases hi : org.ID with
    | none =>
      rw [read_nil_deref env st st1 rid id a org hp ha hg (Or.inl hi)]
      simp
    | some orgID =>
      cases hn : org.DisplayName with
      | none =>
        rw [read_nil_deref env st st1 rid id a org hp ha hg (Or.inr hn)]
        simp
      | some displayName =>
        rw [read_success env st st1 rid id a org orgID displayName hp ha hg hi hn]
        simp
  · by_cases hgone : org.ID = none ∨ org.ID = some ""
    · simp [Read, hp, organizationsClient_ok _ _ _ ha, hg, hgone]
    · simp [Read, hp, organizationsClient_ok _ _ _ ha, hg, hgone]

/-- Once the configuration is decoded and the organizations client is obtained,
`Update` makes the remote `Get` call for the parsed ID. -/
theorem update_calls_get {σ : Type} (env : Env σ) (md : MetaData) (st : σ) (rid : String)
    (id : NestedItemId) (state : IotCentralOrganizationModel) (a : Authorizer)
    (hp : env.ParseNestedItemID rid = .ok id) (hd : md.decode = .ok state)
    (ha : env.client.authorizerFunc env.client.api = .ok a) :
    Event.remoteGet id.SubDomain id.Id ∈ (Update env md st rid).events := by
  rcases hg : env.remote.get st id.SubDomain id.Id with ⟨⟨existing, _ | e⟩, st1⟩
  · cases hi : existing.ID with
    | none =>
      rw [update_nil_deref env md st st1 rid id state a existing hp hd ha hg hi]
      simp
    | some existingID =>
      rw [update_calls env md st st1 rid id state a existing existingID hp hd ha hg hi]
      simp
  · simp [Update, hp, hd, organizationsClient_ok _ _ _ ha, hg]

/-! ## Claims -/

/-- C1: Create followed by Read shows no drift. For every configuration
`(s, o, d, p)`: if `Create` succeeds, the remote answers the create call with the
organization as sent under ID `o` and answers the following `Get` of `(s, o)` with
that same organization, and `ParseNestedItemID` inverts
`NewNestedItemID`/`ParseBaseUrl` on `(s, o)`, then `Read`, run on the remote state
and stored ID that `Create` left, gets `(s, o)` and encodes exactly the state
`(s, o, d, p)`. -/
theorem C1_create_then_read_no_drift {σ : Type} (env : Env σ) (md : MetaData) (st : σ)
    (rid s o d p : String)
    (hdec : md.decode = .ok ⟨s, o, d, p⟩)
    (hok : (Create env md st rid).outcome = .ok)
    (hstored : (env.remote.create st s o (createModel ⟨s, o, d, p⟩)).1.result
        = { createModel ⟨s, o, d, p⟩ with ID := some o })
    (hreturned : (env.remote.get (Create env md st rid).remote s o).1
        = ⟨{ createModel ⟨s, o, d, p⟩ with ID := some o }, none⟩)
    (hinv : ∀ baseUrl orgId, env.ParseBaseUrl s = .ok baseUrl →
        env.NewNestedItemID baseUrl env.NestedItemTypeOrganization o = .ok orgId →
        env.ParseNestedItemID (env.idString orgId) = .ok ⟨s, o⟩) :
    ∃ a, (Read env (Create env md st rid).remote (Create env md st rid).id).events =
      [.authorizerRequested env.client.api,
       .configureClient ⟨.organizations, s⟩ ⟨a⟩,
       .remoteGet s o,
       .encode ⟨s, o, d, p⟩] := by
  obtain ⟨state, a, org, st1, baseUrl, orgID, orgId, hd, ha, hc, hb, ho, hn, hrun⟩ :=
    create_ok_inv env md st rid hok
  have hstate : state = ⟨s, o, d, p⟩ := by
    rw [hdec] at hd
    exact (Except.ok.inj hd).symm
  subst hstate
  simp only at hc hb
  have horg : orgID = o := by
    rw [hc] at hstored
    simp only at hstored
    rw [hstored] at ho
    exact (Option.some.inj ho).symm
  subst horg
  have hparse := hinv baseUrl orgId hb hn
  rw [hrun] at hreturned ⊢
  simp only at hreturned ⊢
  rcases hget : env.remote.get st1 s orgID with ⟨r, st2⟩
  simp only [hget] at hreturned
  subst hreturned
  refine ⟨a, ?_⟩
  have h := read_success env st1 st2 (env.idString orgId) ⟨s, orgID⟩ a
    { createModel ⟨s, orgID, d, p⟩ with ID := some orgID } orgID d hparse ha hget rfl
    (by simp only [createModel]; split_ifs <;> rfl)
  rw [h]
  simp only [readState, createModel]
  by_cases hpe : p = ""
  · simp [hpe]
  · simp [hpe]

/-- Witness of C1: the configuration `(contoso, org1, Org, root)` created on the
empty in-memory remote and read back. -/
theorem C1_create_then_read_no_drift_witness :
    ∃ a, (Read memEnv
        (Create memEnv (planOf ⟨"contoso", "org1", "Org", "root"⟩ []) [] "").remote
        (Create memEnv (planOf ⟨"contoso", "org1", "Org", "root"⟩ []) [] "").id).events =
      [.authorizerRequested memEnv.client.api,
       .configureClient ⟨.organizations, "contoso"⟩ ⟨a⟩,
       .remoteGet "contoso" "org1",
       .encode ⟨"contoso", "org1", "Org", "root"⟩] :=
  C1_create_then_read_no_drift memEnv (planOf ⟨"contoso", "org1", "Org", "root"⟩ []) [] ""
    "contoso" "org1" "Org" "root" rfl (by decide) (by decide) (by decide)
    (by
      intro baseUrl orgId hb hn
      have hb1 : baseUrl = "contoso" := by
        simp [memEnv, memEnvOver] at hb
        exact hb.symm
      subst hb1
      have hn1 : orgId = ⟨"contoso", "org1"⟩ := by
        simp [memEnv, memEnvOver] at hn
        exact hn.symm
      subst hn1
      rfl)

/-- C3: Update applies a changed display name. For every stored ID that parses and
every organization `existing` that `Get` returns without error, if `display_name`
has changed then every remote update call `Update` makes carries a body whose
`DisplayName` is the configured one; the call is made, once and with `If-Match`
`*`, whenever `existing.ID` is non-nil; and when `Update` returns nil and the
following `Get` returns each body that was sent, the following `Read` encodes a
state with the configured display name. -/
theorem C3_update_display_name {σ : Type} (env : Env σ) (md : MetaData) (st st1 : σ)
    (rid : String) (id : NestedItemId) (state : IotCentralOrganizationModel)
    (a : Authorizer) (existing : Organization)
    (hp : env.ParseNestedItemID rid = .ok id)
    (hd : md.decode = .ok state)
    (ha : env.client.authorizerFunc env.client.api = .ok a)
    (hg : env.remote.get st id.SubDomain id.Id = (⟨existing, none⟩, st1))
    (hch : md.hasChange "display_name" = true) :
    (∀ sub i body m, Event.remoteUpdate sub i body m ∈ (Update env md st rid).events →
      body.DisplayName = some state.DisplayName) ∧
    (∀ existingID, existing.ID = some existingID →
      ∃ body, body.DisplayName = some state.DisplayName ∧
        (Update env md st rid).events =
          [.authorizerRequested env.client.api,
           .configureClient ⟨.organizations, id.SubDomain⟩ ⟨a⟩,
           .remoteGet id.SubDomain id.Id,
           .remoteUpdate id.SubDomain existingID body "*"]) ∧
    ((Update env md st rid).outcome = .ok →
      (∀ sub i body m, Event.remoteUpdate sub i body m ∈ (Update env md st rid).events →
        (env.remote.get (Update env md st rid).remote id.SubDomain id.Id).1
          = ⟨body, none⟩) →
      ∃ shown,
        (Read env (Update env md st rid).remote (Update env md st rid).id).events =
          [.authorizerRequested env.client.api,
           .configureClient ⟨.organizations, id.SubDomain⟩ ⟨a⟩,
           .remoteGet id.SubDomain id.Id,
           .encode shown] ∧
        shown.DisplayName = state.DisplayName) := by
  obtain ⟨hall, hmade⟩ := update_sends env md st st1 rid id state a existing hp hd ha hg
  refine ⟨?_, ?_, ?_⟩
  · intro sub i body m hmem
    obtain ⟨-, -, hb, -⟩ := hall sub i body m hmem
    rw [hb]
    exact updateModel_displayName_changed md state existing hch
  · intro existingID hi
    exact ⟨updateModel md state existing,
      updateModel_displayName_changed md state existing hch, hmade existingID hi⟩
  · intro hok hstores
    obtain ⟨existingID, hi, hid, hmem⟩ :=
      update_ok_sent env md st st1 rid id state a existing hp hd ha hg hok
    have hget := hstores _ _ _ _ hmem
    rw [hid]
    rcases hres : env.remote.get (Update env md st rid).remote id.SubDomain id.Id
      with ⟨r, st3⟩
    rw [hres] at hget
    simp only at hget
    subst hget
    refine ⟨readState id existingID state.DisplayName (updateModel md state existing).Parent,
      ?_, rfl⟩
    rw [read_success env (Update env md st rid).remote st3 rid id a
      (updateModel md state existing) existingID state.DisplayName hp ha hres
      (by rw [updateModel_ID, hi])
      (updateModel_displayName_changed md state existing hch)]

/-- Witness of C3: `Org` renamed to `Org updated` on the in-memory remote. -/
theorem C3_update_display_name_witness :
    (∀ sub i body m, Event.remoteUpdate sub i body m ∈
        (Update memEnv (planOf ⟨"contoso", "org1", "Org updated", ""⟩ ["display_name"])
          [("contoso", "org1", ⟨some "org1", some "Org", none⟩)] "contoso/org1").events →
      body.DisplayName = some "Org updated") ∧
    (∀ existingID, some "org1" = some existingID →
      ∃ body, body.DisplayName = some "Org updated" ∧
        (Update memEnv (planOf ⟨"contoso", "org1", "Org updated", ""⟩ ["display_name"])
          [("contoso", "org1", ⟨some "org1", some "Org", none⟩)] "contoso/org1").events =
          [.authorizerRequested memEnv.client.api,
           .configureClient ⟨.organizations, "contoso"⟩ ⟨"token"⟩,
           .remoteGet "contoso" "org1",
           .remoteUpdate "contoso" existingID body "*"]) ∧
    ∃ shown,
      (Read memEnv [("contoso", "org1", ⟨some "org1", some "Org updated", none⟩)]
          "contoso/org1").events =
        [.authorizerRequested memEnv.client.api,
         .configureClient ⟨.organizations, "contoso"⟩ ⟨"token"⟩,
         .remoteGet "contoso" "org1",
         .encode shown] ∧
      shown.DisplayName = "Org updated" :=
  have h := C3_update_display_name memEnv
    (planOf ⟨"contoso", "org1", "Org updated", ""⟩ ["display_name"])
    [("contoso", "org1", ⟨some "org1", some "Org", none⟩)]
    [("contoso", "org1", ⟨some "org1", some "Org", none⟩)]
    "contoso/org1" ⟨"contoso", "org1"⟩ ⟨"contoso", "org1", "Org updated", ""⟩ "token"
    ⟨some "org1", some "Org", none⟩ rfl rfl rfl rfl rfl
  ⟨h.1, h.2.1, h.2.2 (by decide) (by
    intro sub i body m hmem
    have hev : (Update memEnv
        (planOf ⟨"contoso", "org1", "Org updated", ""⟩ ["display_name"])
        [("contoso", "org1", ⟨some "org1", some "Org", none⟩)] "contoso/org1").events =
        [.authorizerRequested iotCentralApi,
         .configureClient ⟨.organizations, "contoso"⟩ ⟨"token"⟩,
         .remoteGet "contoso" "org1",
         .remoteUpdate "contoso" "org1" ⟨some "org1", some "Org updated", none⟩ "*"] := by
      decide
    rw [hev] at hmem
    simp at hmem
    obtain ⟨-, -, hb, -⟩ := hmem
    subst hb
    rfl)⟩

/-- C4: Update applies a newly set or changed parent. For every organization
`existing` that `Get` returns without error, with or without a parent, if `parent`
has changed and the configured parent is non-empty then every remote update call
`Update` makes carries a body whose `Parent` is the configured parent, and the call
is made, once, whenever `existing.ID` is non-nil. -/
theorem C4_update_parent {σ : Type} (env : Env σ) (md : MetaData) (st st1 : σ)
    (rid : String) (id : NestedItemId) (state : IotCentralOrganizationModel)
    (a : Authorizer) (existing : Organization)
    (hp : env.ParseNestedItemID rid = .ok id)
    (hd : md.decode = .ok state)
    (ha : env.client.authorizerFunc env.client.api = .ok a)
    (hg : env.remote.get st id.SubDomain id.Id = (⟨existing, none⟩, st1))
    (hch : md.hasChange "parent" = true) (hne : state.Parent ≠ "") :
    (∀ sub i body m, Event.remoteUpdate sub i body m ∈ (Update env md st rid).events →
      body.Parent = some state.Parent) ∧
    (∀ existingID, existing.ID = some existingID →
      ∃ body, body.Parent = some state.Parent ∧
        (Update env md st rid).events =
          [.authorizerRequested env.client.api,
           .configureClient ⟨.organizations, id.SubDomain⟩ ⟨a⟩,
           .remoteGet id.SubDomain id.Id,
           .remoteUpdate id.SubDomain existingID body "*"]) := by
  obtain ⟨hall, hmade⟩ := update_sends env md st st1 rid id state a existing hp hd ha hg
  constructor
  · intro sub i body m hmem
    obtain ⟨-, -, hb, -⟩ := hall sub i body m hmem
    rw [hb]
    exact updateModel_parent_set md state existing hch hne
  · intro existingID hi
    exact ⟨updateModel md state existing,
      updateModel_parent_set md state existing hch hne, hmade existingID hi⟩

/-- Witness of C4: the parent of `org1` changed from `root` to `root2` on the
in-memory remote. -/
theorem C4_update_parent_witness :
    (∀ sub i body m, Event.remoteUpdate sub i body m ∈
        (Update memEnv (planOf ⟨"contoso", "org1", "Org", "root2"⟩ ["parent"])
          [("contoso", "org1", ⟨some "org1", some "Org", some "root"⟩)]
          "contoso/org1").events →
      body.Parent = some "root2") ∧
    (∀ existingID, some "org1" = some existingID →
      ∃ body, body.Parent = some "root2" ∧
        (Update memEnv (planOf ⟨"contoso", "org1", "Org", "root2"⟩ ["parent"])
          [("contoso", "org1", ⟨some "org1", some "Org", some "root"⟩)]
          "contoso/org1").events =
          [.authorizerRequested memEnv.client.api,
           .configureClient ⟨.organizations, "contoso"⟩ ⟨"token"⟩,
           .remoteGet "contoso" "org1",
           .remoteUpdate "contoso" existingID body "*"]) :=
  C4_update_parent memEnv (planOf ⟨"contoso", "org1", "Org", "root2"⟩ ["parent"])
    [("contoso", "org1", ⟨some "org1", some "Org", some "root"⟩)]
    [("contoso", "org1", ⟨some "org1", some "Org", some "root"⟩)]
    "contoso/org1" ⟨"contoso", "org1"⟩ ⟨"contoso", "org1", "Org", "root2"⟩ "token"
    ⟨some "org1", some "Org", some "root"⟩ rfl rfl rfl rfl rfl (by decide)

/-- C5: on success Create tracks the identifier of the object the remote created.
Whenever `Create` returns nil, the configuration decoded to some `state`, the
remote create call was made once, on the client for `state.SubDomain`, with
`state.OrganizationId`, and answered without error by some `org` with a non-nil ID;
and the resource ID was set exactly once, as the last event, to
`NewNestedItemID(ParseBaseUrl(state.SubDomain), NestedItemTypeOrganization, *org.ID)`. -/
theorem C5_create_tracks_created_id {σ : Type} (env : Env σ) (md : MetaData) (st : σ)
    (rid : String) (hok : (Create env md st rid).outcome = .ok) :
    ∃ state a org st1 baseUrl orgID orgId,
      md.decode = .ok state ∧
      env.remote.create st state.SubDomain state.OrganizationId (createModel state)
        = (⟨org, none⟩, st1) ∧
      org.ID = some orgID ∧
      env.ParseBaseUrl state.SubDomain = .ok baseUrl ∧
      env.NewNestedItemID baseUrl env.NestedItemTypeOrganization orgID = .ok orgId ∧
      (Create env md st rid).events =
        [.authorizerRequested env.client.api,
         .configureClient ⟨.organizations, state.SubDomain⟩ ⟨a⟩,
         .remoteCreate state.SubDomain state.OrganizationId (createModel state),
         .setID orgId] ∧
      (Create env md st rid).id = env.idString orgId := by
  obtain ⟨state, a, org, st1, baseUrl, orgID, orgId, hd, -, hc, hb, ho, hn, hrun⟩ :=
    create_ok_inv env md st rid hok
  exact ⟨state, a, org, st1, baseUrl, orgID, orgId, hd, hc, ho, hb, hn,
    by rw [hrun], by rw [hrun]⟩

/-- Witness of C5: `(contoso, org1, Org, "")` created on the empty in-memory
remote. -/
theorem C5_create_tracks_created_id_witness :
    ∃ state a org st1 baseUrl orgID orgId,
      (planOf ⟨"contoso", "org1", "Org", ""⟩ []).decode = .ok state ∧
      memEnv.remote.create [] state.SubDomain state.OrganizationId (createModel state)
        = (⟨org, none⟩, st1) ∧
      org.ID = some orgID ∧
      memEnv.ParseBaseUrl state.SubDomain = .ok baseUrl ∧
      memEnv.NewNestedItemID baseUrl memEnv.NestedItemTypeOrganization orgID = .ok orgId ∧
      (Create memEnv (planOf ⟨"contoso", "org1", "Org", ""⟩ []) [] "").events =
        [.authorizerRequested memEnv.client.api,
         .configureClient ⟨.organizations, state.SubDomain⟩ ⟨a⟩,
         .remoteCreate state.SubDomain state.OrganizationId (createModel state),
         .setID orgId] ∧
      (Create memEnv (planOf ⟨"contoso", "org1", "Org", ""⟩ []) [] "").id
        = memEnv.idString orgId :=
  C5_create_tracks_created_id memEnv (planOf ⟨"contoso", "org1", "Org", ""⟩ []) [] ""
    (by decide)

/-- C7: Delete removes exactly the tracked organization. For every stored ID that
parses and for which the organizations client is obtained, `Delete` makes exactly
one remote call, `Remove` of the parsed item id on the parsed sub-domain; it
returns nil if and only if that call returns no error; and when `Remove` fails with
`e`, `Delete` returns the error `deleting <id>: <e>`. -/
theorem C7_delete_removes_tracked {σ : Type} (env : Env σ) (st : σ) (rid : String)
    (id : NestedItemId) (a : Authorizer)
    (hp : env.ParseNestedItemID rid = .ok id)
    (ha : env.client.authorizerFunc env.client.api = .ok a) :
    (Delete env st rid).events =
      [.authorizerRequested env.client.api,
       .configureClient ⟨.organizations, id.SubDomain⟩ ⟨a⟩,
       .remoteRemove id.SubDomain id.Id] ∧
    ((Delete env st rid).outcome = .ok ↔
      (env.remote.remove st id.SubDomain id.Id).1 = none) ∧
    (∀ e, (env.remote.remove st id.SubDomain id.Id).1 = some e →
      (Delete env st rid).outcome = .err ("deleting " ++ env.fmtIdPtr id ++ ": " ++ e)) := by
  rw [delete_calls env st rid id a hp ha]
  refine ⟨rfl, ?_, ?_⟩
  · cases h : (env.remote.remove st id.SubDomain id.Id).1 <;> simp [deleteOutcome]
  · intro e he
    simp [he, deleteOutcome]

/-- Witness of C7: `org1` deleted from the in-memory remote. -/
theorem C7_delete_removes_tracked_witness :
    (Delete memEnv [("contoso", "org1", ⟨some "org1", some "Org", none⟩)]
        "contoso/org1").events =
      [.authorizerRequested memEnv.client.api,
       .configureClient ⟨.organizations, "contoso"⟩ ⟨"token"⟩,
       .remoteRemove "contoso" "org1"] ∧
    ((Delete memEnv [("contoso", "org1", ⟨some "org1", some "Org", none⟩)]
        "contoso/org1").outcome = .ok ↔
      (memEnv.remote.remove [("contoso", "org1", ⟨some "org1", some "Org", none⟩)]
        "contoso" "org1").1 = none) ∧
    (∀ e, (memEnv.remote.remove [("contoso", "org1", ⟨some "org1", some "Org", none⟩)]
        "contoso" "org1").1 = some e →
      (Delete memEnv [("contoso", "org1", ⟨some "org1", some "Org", none⟩)]
        "contoso/org1").outcome
        = .err ("deleting " ++ memEnv.fmtIdPtr ⟨"contoso", "org1"⟩ ++ ": " ++ e)) :=
  C7_delete_removes_tracked memEnv [("contoso", "org1", ⟨some "org1", some "Org", none⟩)]
    "contoso/org1" ⟨"contoso", "org1"⟩ "token" rfl rfl

/-- C10: Update cannot unset the parent. For every organization `existing` that
`Get` returns without error, if `parent` has changed and the configured parent is
the empty string then every remote update call `Update` makes carries a body whose
`Parent` is `existing.Parent`, and the call is made, once, whenever `existing.ID`
is non-nil. -/
theorem C10_update_cannot_unset_parent {σ : Type} (env : Env σ) (md : MetaData)
    (st st1 : σ) (rid : String) (id : NestedItemId) (state : IotCentralOrganizationModel)
    (a : Authorizer) (existing : Organization)
    (hp : env.ParseNestedItemID rid = .ok id)
    (hd : md.decode = .ok state)
    (ha : env.client.authorizerFunc env.client.api = .ok a)
    (hg : env.remote.get st id.SubDomain id.Id = (⟨existing, none⟩, st1))
    (hch : md.hasChange "parent" = true) (he : state.Parent = "") :
    (∀ sub i body m, Event.remoteUpdate sub i body m ∈ (Update env md st rid).events →
      body.Parent = existing.Parent) ∧
    (∀ existingID, existing.ID = some existingID →
      ∃ body, body.Parent = existing.Parent ∧
        (Update env md st rid).events =
          [.authorizerRequested env.client.api,
           .configureClient ⟨.organizations, id.SubDomain⟩ ⟨a⟩,
           .remoteGet id.SubDomain id.Id,
           .remoteUpdate id.SubDomain existingID body "*"]) := by
  obtain ⟨hall, hmade⟩ := update_sends env md st st1 rid id state a existing hp hd ha hg
  constructor
  · intro sub i body m hmem
    obtain ⟨-, -, hb, -⟩ := hall sub i body m hmem
    rw [hb]
    exact updateModel_parent_unset md state existing hch he
  · intro existingID hi
    exact ⟨updateModel md state existing,
      updateModel_parent_unset md state existing hch he, hmade existingID hi⟩

/-- Witness of C10: the parent `root` of `org1` removed from the configuration;
the body sent still has parent `root`. -/
theorem C10_update_cannot_unset_parent_witness :
    (∀ sub i body m, Event.remoteUpdate sub i body m ∈
        (Update memEnv (planOf ⟨"contoso", "org1", "Org", ""⟩ ["parent"])
          [("contoso", "org1", ⟨some "org1", some "Org", some "root"⟩)]
          "contoso/org1").events →
      body.Parent = some "root") ∧
    (∀ existingID, some "org1" = some existingID →
      ∃ body, body.Parent = some "root" ∧
        (Update memEnv (planOf ⟨"contoso", "org1", "Org", ""⟩ ["parent"])
          [("contoso", "org1", ⟨some "org1", some "Org", some "root"⟩)]
          "contoso/org1").events =
          [.authorizerRequested memEnv.client.api,
           .configureClient ⟨.organizations, "contoso"⟩ ⟨"token"⟩,
           .remoteGet "contoso" "org1",
           .remoteUpdate "contoso" existingID body "*"]) :=
  C10_update_cannot_unset_parent memEnv (planOf ⟨"contoso", "org1", "Org", ""⟩ ["parent"])
    [("contoso", "org1", ⟨some "org1", some "Org", some "root"⟩)]
    [("contoso", "org1", ⟨some "org1", some "Org", some "root"⟩)]
    "contoso/org1" ⟨"contoso", "org1"⟩ ⟨"contoso", "org1", "Org", ""⟩ "token"
    ⟨some "org1", some "Org", some "root"⟩ rfl rfl rfl rfl rfl rfl

/-- C6: Read, Update and Delete recover the sub-domain and item ID from the stored
composite ID and fail closed on a bad ID. For every stored ID that
`ParseNestedItemID` rejects with `e`, each of the three returns `e`, makes no call
at all and leaves the remote state and the stored ID as they were. For every ID it
accepts, every client the three configure and every remote call they make is for
the parsed `SubDomain`, every `Get` and `Remove` call names the parsed `Id`, and
once the client is obtained `Read` makes that `Get` call, `Delete` that `Remove`
call and, when the configuration decodes, `Update` that `Get` call. -/
theorem C6_parsed_id_fail_closed {σ : Type} (env : Env σ) (md : MetaData) (st : σ)
    (rid : String) :
    (∀ e, env.ParseNestedItemID rid = .error e →
      Read env st rid = ⟨st, rid, [], .err e⟩ ∧
      Update env md st rid = ⟨st, rid, [], .err e⟩ ∧
      Delete env st rid = ⟨st, rid, [], .err e⟩) ∧
    (∀ id, env.ParseNestedItemID rid = .ok id →
      (∀ ev ∈ (Read env st rid).events, ev.usesParsed id) ∧
      (∀ ev ∈ (Update env md st rid).events, ev.usesParsed id) ∧
      (∀ ev ∈ (Delete env st rid).events, ev.usesParsed id) ∧
      (∀ a, env.client.authorizerFunc env.client.api = .ok a →
        Event.remoteGet id.SubDomain id.Id ∈ (Read env st rid).events ∧
        Event.remoteRemove id.SubDomain id.Id ∈ (Delete env st rid).events ∧
        (∀ state, md.decode = .ok state →
          Event.remoteGet id.SubDomain id.Id ∈ (Update env md st rid).events))) := by
  constructor
  · intro e he
    simp [Read, Update, Delete, he]
  · intro id hp
    refine ⟨read_uses_parsed env st rid id hp, update_uses_parsed env md st rid id hp,
      delete_uses_parsed env st rid id hp, ?_⟩
    intro a ha
    refine ⟨read_calls_get env st rid id a hp ha, ?_, ?_⟩
    · rw [delete_calls env st rid id a hp ha]
      simp
    · intro state hd
      exact update_calls_get env md st rid id state a hp hd ha

/-- Witness of C6: the stored ID `no-slash` is rejected by the textual parser, and
the stored ID `contoso/org1` is accepted. -/
theorem C6_parsed_id_fail_closed_witness :
    (Read memEnv [] "no-slash" = ⟨[], "no-slash", [], .err "invalid nested item id"⟩ ∧
      Update memEnv (planOf ⟨"contoso", "org1", "Org", ""⟩ []) [] "no-slash"
        = ⟨[], "no-slash", [], .err "invalid nested item id"⟩ ∧
      Delete memEnv [] "no-slash" = ⟨[], "no-slash", [], .err "invalid nested item id"⟩) ∧
    (Event.remoteGet "contoso" "org1" ∈ (Read memEnv [] "contoso/org1").events ∧
      Event.remoteRemove "contoso" "org1" ∈ (Delete memEnv [] "contoso/org1").events ∧
      (∀ state, (planOf ⟨"contoso", "org1", "Org", ""⟩ []).decode = .ok state →
        Event.remoteGet "contoso" "org1" ∈
          (Update memEnv (planOf ⟨"contoso", "org1", "Org", ""⟩ []) []
            "contoso/org1").events)) :=
  ⟨(C6_parsed_id_fail_closed memEnv (planOf ⟨"contoso", "org1", "Org", ""⟩ []) []
      "no-slash").1 "invalid nested item id" rfl,
   ((C6_parsed_id_fail_closed memEnv (planOf ⟨"contoso", "org1", "Org", ""⟩ []) []
      "contoso/org1").2 ⟨"contoso", "org1"⟩ rfl).2.2.2 "token" rfl⟩

/-- C9: the data-plane client factories wire the bearer-token authorizer for a
fixed endpoint. For every `Client` built by `NewClient` and every subdomain,
`OrganizationsClient` and `RolesClient` ask `o.Authorizers.AuthorizerFunc` once for
the endpoint `IotCentral` at `https://apps.azureiotcentral.com`, whatever the
subdomain and the environment; they return an error if and only if that function
does, and then configure no client; otherwise they return the client of their kind
for the given subdomain, configured exactly once, with the wrapped authorizer the
function returned. -/
theorem C9_client_factories (o : ClientOptions) (evs : List Event) (c : Client)
    (sub : String) (hnew : NewClient o = (evs, .ok c)) :
    (∀ e, o.AuthorizerFunc iotCentralApi = .error e →
      c.OrganizationsClient sub =
        ([.authorizerRequested iotCentralApi],
         .error ("obtaining auth token for " ++ quoted "https://apps.azureiotcentral.com"
           ++ ": " ++ e)) ∧
      c.RolesClient sub =
        ([.authorizerRequested iotCentralApi],
         .error ("obtaining auth token for " ++ quoted "https://apps.azureiotcentral.com"
           ++ ": " ++ e))) ∧
    (∀ a, o.AuthorizerFunc iotCentralApi = .ok a →
      c.OrganizationsClient sub =
        ([.authorizerRequested iotCentralApi,
          .configureClient ⟨.organizations, sub⟩ ⟨a⟩], .ok ⟨.organizations, sub⟩) ∧
      c.RolesClient sub =
        ([.authorizerRequested iotCentralApi,
          .configureClient ⟨.roles, sub⟩ ⟨a⟩], .ok ⟨.roles, sub⟩)) ∧
    ((∃ e, (c.OrganizationsClient sub).2 = .error e) ↔
      ∃ e, o.AuthorizerFunc iotCentralApi = .error e) ∧
    ((∃ e, (c.RolesClient sub).2 = .error e) ↔
      ∃ e, o.AuthorizerFunc iotCentralApi = .error e) := by
  have hc : c = { AppsClient := o.ResourceManager, authorizerFunc := o.AuthorizerFunc,
                  endpoint := "https://apps.azureiotcentral.com" } := by
    unfold NewClient at hnew
    cases hn : o.newAppsClientErr o.ResourceManager with
    | some err => simp [hn] at hnew
    | none =>
      simp only [hn, Prod.mk.injEq, Except.ok.injEq] at hnew
      exact hnew.2.symm
  subst hc
  have hE : ∀ e, o.AuthorizerFunc iotCentralApi = .error e → ∀ kind,
      Client.dataplaneClient ⟨o.ResourceManager, o.AuthorizerFunc,
        "https://apps.azureiotcentral.com"⟩ kind sub =
      ([.authorizerRequested iotCentralApi],
       .error ("obtaining auth token for " ++ quoted "https://apps.azureiotcentral.com"
         ++ ": " ++ e)) := fun e he kind => dataplaneClient_error _ kind sub e he
  have hO : ∀ a, o.AuthorizerFunc iotCentralApi = .ok a → ∀ kind,
      Client.dataplaneClient ⟨o.ResourceManager, o.AuthorizerFunc,
        "https://apps.azureiotcentral.com"⟩ kind sub =
      ([.authorizerRequested iotCentralApi, .configureClient ⟨kind, sub⟩ ⟨a⟩],
       .ok ⟨kind, sub⟩) := fun a ha kind => dataplaneClient_ok _ kind sub a ha
  refine ⟨fun e he => ⟨hE e he _, hE e he _⟩, fun a ha => ⟨hO a ha _, hO a ha _⟩, ?_, ?_⟩
  · cases hf : o.AuthorizerFunc iotCentralApi with
    | error e => simp [Client.OrganizationsClient, hE e hf]
    | ok a => simp [Client.OrganizationsClient, hO a hf]
  · cases hf : o.AuthorizerFunc iotCentralApi with
    | error e => simp [Client.RolesClient, hE e hf]
    | ok a => simp [Client.RolesClient, hO a hf]

/-- Witness of C9: the client built from `memOptions`, asked for the data-plane
clients of sub-domain `contoso`. -/
theorem C9_client_factories_witness :
    (∀ e, memOptions.AuthorizerFunc iotCentralApi = .error e →
      memClient.OrganizationsClient "contoso" =
        ([.authorizerRequested iotCentralApi],
         .error ("obtaining auth token for " ++ quoted "https://apps.azureiotcentral.com"
           ++ ": " ++ e)) ∧
      memClient.RolesClient "contoso" =
        ([.authorizerRequested iotCentralApi],
         .error ("obtaining auth token for " ++ quoted "https://apps.azureiotcentral.com"
           ++ ": " ++ e))) ∧
    (∀ a, memOptions.AuthorizerFunc iotCentralApi = .ok a →
      memClient.OrganizationsClient "contoso" =
        ([.authorizerRequested iotCentralApi,
          .configureClient ⟨.organizations, "contoso"⟩ ⟨a⟩],
         .ok ⟨.organizations, "contoso"⟩) ∧
      memClient.RolesClient "contoso" =
        ([.authorizerRequested iotCentralApi,
          .configureClient ⟨.roles, "contoso"⟩ ⟨a⟩], .ok ⟨.roles, "contoso"⟩)) ∧
    ((∃ e, (memClient.OrganizationsClient "contoso").2 = .error e) ↔
      ∃ e, memOptions.AuthorizerFunc iotCentralApi = .error e) ∧
    ((∃ e, (memClient.RolesClient "contoso").2 = .error e) ↔
      ∃ e, memOptions.AuthorizerFunc iotCentralApi = .error e) :=
  C9_client_factories memOptions
    [.configureApps "https://management.azure.com" "arm-token"] memClient "contoso" rfl

/-- C8 at the fixtures `basic` and `templateComplete`, rendered for random integer
1 and location `westeurope`: the only organization block of `basic` has the
arguments `sub_domain` and `display_name` and so lacks the required
`organization_id`; the only organization block of the user test's
`templateComplete` uses the undeclared `iotcentral_application_id` and lacks the
required `sub_domain`. Neither is a valid configuration of the resource. -/
theorem C8_fixture_blocks_not_valid :
    requiredArguments = ["sub_domain", "organization_id", "display_name"] ∧
    declaredArguments = ["sub_domain", "organization_id", "display_name", "parent"] ∧
    organizationBlocks (IoTCentralOrganizationResource.basic ⟨1, "westeurope"⟩)
      = [["sub_domain", "display_name"]] ∧
    validBlock ["sub_domain", "display_name"] = false ∧
    organizationBlocks (IoTCentralOrganizationResource.complete ⟨1, "westeurope"⟩)
      = [["sub_domain", "display_name"], ["sub_domain", "display_name", "parent"]] ∧
    validBlock ["sub_domain", "display_name", "parent"] = false ∧
    organizationBlocks (IotCentralUserResource.templateComplete ⟨1, "westeurope"⟩)
      = [["iotcentral_application_id", "organization_id", "display_name"]] ∧
    validBlock ["iotcentral_application_id", "organization_id", "display_name"] = false := by
  decide

/-- Every way a run of `Update` can look: the stored ID is untouched and the
events are one of four sequences. -/
theorem update_shapes {σ : Type} (env : Env σ) (md : MetaData) (st : σ) (rid : String) :
    (Update env md st rid).id = rid ∧
    ((Update env md st rid).events = [] ∨
     (Update env md st rid).events = [.authorizerRequested env.client.api] ∨
     (∃ id a, env.ParseNestedItemID rid = .ok id ∧
        (Update env md st rid).outcome ≠ .ok ∧
        (Update env md st rid).events =
          [.authorizerRequested env.client.api,
           .configureClient ⟨.organizations, id.SubDomain⟩ ⟨a⟩,
           .remoteGet id.SubDomain id.Id]) ∨
     (∃ id a state existing st1 existingID,
        env.ParseNestedItemID rid = .ok id ∧ md.decode = .ok state ∧
        env.remote.get st id.SubDomain id.Id = (⟨existing, none⟩, st1) ∧
        existing.ID = some existingID ∧
        (Update env md st rid).events =
          [.authorizerRequested env.client.api,
           .configureClient ⟨.organizations, id.SubDomain⟩ ⟨a⟩,
           .remoteGet id.SubDomain id.Id,
           .remoteUpdate id.SubDomain existingID (updateModel md state existing) "*"])) := by
  cases hp : env.ParseNestedItemID rid with
  | error e => simp [Update, hp]
  | ok id =>
    cases hd : md.decode with
    | error e => simp [Update, hp, hd]
    | ok state =>
      cases ha : env.client.authorizerFunc env.client.api with
      | error e => simp [Update, hp, hd, organizationsClient_error _ _ _ ha]
      | ok a =>
        rcases hg : env.remote.get st id.SubDomain id.Id with ⟨⟨existing, _ | e⟩, st1⟩
        · cases hi : existing.ID with
          | none =>
            rw [update_nil_deref env md st st1 rid id state a existing hp hd ha hg hi]
            simp
          | some existingID =>
            rw [update_calls env md st st1 rid id state a existing existingID hp hd ha hg hi]
            refine ⟨rfl, Or.inr (Or.inr (Or.inr ?_))⟩
            exact ⟨id, a, state, existing, st1, existingID, rfl, rfl, hg, hi, rfl⟩
        · simp [Update, hp, hd, organizationsClient_ok _ _ _ ha, hg]

/-- C11: Update keeps the tracked identifier stable. For every input, `Update`
leaves the stored resource ID as it was and makes no `SetID`, `Encode` or
`MarkAsGone` (and no remote create or remove) call; it makes at most one remote
`Get` and at most one remote `Update` call; and every remote `Update` call comes
directly after the `Get` call, which succeeded, names the ID of the organization
`Get` returned, and carries the If-Match `*`. -/
theorem C11_update_keeps_identifier {σ : Type} (env : Env σ) (md : MetaData) (st : σ)
    (rid : String) :
    (Update env md st rid).id = rid ∧
    (∀ nid, Event.setID nid ∉ (Update env md st rid).events) ∧
    (∀ m, Event.encode m ∉ (Update env md st rid).events) ∧
    (∀ nid, Event.markAsGone nid ∉ (Update env md st rid).events) ∧
    (∀ sub i body, Event.remoteCreate sub i body ∉ (Update env md st rid).events) ∧
    (∀ sub i, Event.remoteRemove sub i ∉ (Update env md st rid).events) ∧
    (Update env md st rid).events.countP Event.isGet ≤ 1 ∧
    (Update env md st rid).events.countP Event.isUpdate ≤ 1 ∧
    (∀ sub i body m, Event.remoteUpdate sub i body m ∈ (Update env md st rid).events →
      m = "*" ∧
      ∃ id existing st1 pre,
        env.ParseNestedItemID rid = .ok id ∧ sub = id.SubDomain ∧
        env.remote.get st id.SubDomain id.Id = (⟨existing, none⟩, st1) ∧
        existing.ID = some i ∧
        (Update env md st rid).events =
          pre ++ [.remoteGet id.SubDomain id.Id, .remoteUpdate sub i body m]) := by
  obtain ⟨hid, hshape⟩ := update_shapes env md st rid
  refine ⟨hid, ?_⟩
  rcases hshape with h | h | ⟨id, a, -, -, h⟩ | ⟨id, a, state, existing, st1, eid, hp, -, hg, hi, h⟩
  · simp [h, Event.isGet, Event.isUpdate]
  · simp [h, Event.isGet, Event.isUpdate]
  · simp [h, Event.isGet, Event.isUpdate]
  · rw [h]
    refine ⟨by simp, by simp, by simp, by simp, by simp, by simp [Event.isGet],
      by simp [Event.isUpdate], ?_⟩
    intro sub i body m hmem
    simp at hmem
    obtain ⟨h1, h2, h3, h4⟩ := hmem
    subst h1 h2 h3 h4
    exact ⟨rfl, id, existing, st1,
      [.authorizerRequested env.client.api,
       .configureClient ⟨.organizations, id.SubDomain⟩ ⟨a⟩], hp, rfl, hg, hi, rfl⟩

/-- C12: Update changes only what the plan changed. For every organization
`existing` that `Get` returns without error, every remote update call `Update`
makes carries a body that equals `existing` when neither `display_name` nor
`parent` has changed, keeps `existing.Parent` when only `display_name` has
changed, and keeps `existing.DisplayName` when only `parent` has changed; the
body always keeps `existing.ID`; and the call is made, once, whenever
`existing.ID` is non-nil. -/
theorem C12_update_changes_only_planned {σ : Type} (env : Env σ) (md : MetaData)
    (st st1 : σ) (rid : String) (id : NestedItemId) (state : IotCentralOrganizationModel)
    (a : Authorizer) (existing : Organization)
    (hp : env.ParseNestedItemID rid = .ok id)
    (hd : md.decode = .ok state)
    (ha : env.client.authorizerFunc env.client.api = .ok a)
    (hg : env.remote.get st id.SubDomain id.Id = (⟨existing, none⟩, st1)) :
    (∀ sub i body m, Event.remoteUpdate sub i body m ∈ (Update env md st rid).events →
      body.ID = existing.ID ∧
      (md.hasChange "display_name" = false → md.hasChange "parent" = false →
        body = existing) ∧
      (md.hasChange "parent" = false → body.Parent = existing.Parent) ∧
      (md.hasChange "display_name" = false → body.DisplayName = existing.DisplayName)) ∧
    (∀ existingID, existing.ID = some existingID →
      ∃ body,
        (Update env md st rid).events =
          [.authorizerRequested env.client.api,
           .configureClient ⟨.organizations, id.SubDomain⟩ ⟨a⟩,
           .remoteGet id.SubDomain id.Id,
           .remoteUpdate id.SubDomain existingID body "*"]) := by
  obtain ⟨hall, hmade⟩ := update_sends env md st st1 rid id state a existing hp hd ha hg
  constructor
  · intro sub i body m hmem
    obtain ⟨-, -, hb, -⟩ := hall sub i body m hmem
    subst hb
    refine ⟨updateModel_ID md state existing, ?_, ?_, ?_⟩
    · intro h1 h2
      simp [updateModel, h1, h2]
    · intro h2
      cases h1 : md.hasChange "display_name" <;> simp [updateModel, h1, h2]
    · intro h1
      cases h2 : md.hasChange "parent" <;> simp [updateModel, h1, h2]
      split_ifs <;> rfl
  · intro existingID hi
    exact ⟨updateModel md state existing, hmade existingID hi⟩

/-- Witness of C12: a plan that changes nothing, applied to `org1` on the
in-memory remote. -/
theorem C12_update_changes_only_planned_witness :
    (∀ sub i body m, Event.remoteUpdate sub i body m ∈
        (Update memEnv (planOf ⟨"contoso", "org1", "Other", "other"⟩ [])
          [("contoso", "org1", ⟨some "org1", some "Org", some "root"⟩)]
          "contoso/org1").events →
      body.ID = some "org1" ∧
      ((planOf ⟨"contoso", "org1", "Other", "other"⟩ []).hasChange "display_name" = false →
        (planOf ⟨"contoso", "org1", "Other", "other"⟩ []).hasChange "parent" = false →
        body = ⟨some "org1", some "Org", some "root"⟩) ∧
      ((planOf ⟨"contoso", "org1", "Other", "other"⟩ []).hasChange "parent" = false →
        body.Parent = some "root") ∧
      ((planOf ⟨"contoso", "org1", "Other", "other"⟩ []).hasChange "display_name" = false →
        body.DisplayName = some "Org")) ∧
    (∀ existingID, some "org1" = some existingID →
      ∃ body,
        (Update memEnv (planOf ⟨"contoso", "org1", "Other", "other"⟩ [])
          [("contoso", "org1", ⟨some "org1", some "Org", some "root"⟩)]
          "contoso/org1").events =
          [.authorizerRequested memEnv.client.api,
           .configureClient ⟨.organizations, "contoso"⟩ ⟨"token"⟩,
           .remoteGet "contoso" "org1",
           .remoteUpdate "contoso" existingID body "*"]) :=
  C12_update_changes_only_planned memEnv (planOf ⟨"contoso", "org1", "Other", "other"⟩ [])
    [("contoso", "org1", ⟨some "org1", some "Org", some "root"⟩)]
    [("contoso", "org1", ⟨some "org1", some "Org", some "root"⟩)]
    "contoso/org1" ⟨"contoso", "org1"⟩ ⟨"contoso", "org1", "Other", "other"⟩ "token"
    ⟨some "org1", some "Org", some "root"⟩ rfl rfl rfl rfl

/-- C13: Read decides between gone and error only from the response's ID.
Whenever the remote `Get` fails with an error `e`, whatever `e` is: if the
returned organization's `ID` is nil or the empty string, `Read` calls `MarkAsGone`
for the parsed ID and returns what it returns; otherwise `Read` returns the error
`retrieving <id>: <e>` and does not mark the resource as gone; the resource is
marked as gone exactly in the first case; and in neither case is a state
encoded. -/
theorem C13_read_gone_or_error {σ : Type} (env : Env σ) (st st1 : σ) (rid : String)
    (id : NestedItemId) (a : Authorizer) (org : Organization) (e : Error)
    (hp : env.ParseNestedItemID rid = .ok id)
    (ha : env.client.authorizerFunc env.client.api = .ok a)
    (hg : env.remote.get st id.SubDomain id.Id = (⟨org, some e⟩, st1)) :
    ((org.ID = none ∨ org.ID = some "") →
      (Read env st rid).events =
        [.authorizerRequested env.client.api,
         .configureClient ⟨.organizations, id.SubDomain⟩ ⟨a⟩,
         .remoteGet id.SubDomain id.Id,
         .markAsGone id] ∧
      (Read env st rid).outcome = Outcome.ofErr (env.markAsGoneErr id)) ∧
    (¬ (org.ID = none ∨ org.ID = some "") →
      (Read env st rid).events =
        [.authorizerRequested env.client.api,
         .configureClient ⟨.organizations, id.SubDomain⟩ ⟨a⟩,
         .remoteGet id.SubDomain id.Id] ∧
      (Read env st rid).outcome = .err ("retrieving " ++ env.fmtIdVal id ++ ": " ++ e)) ∧
    ((∃ nid, Event.markAsGone nid ∈ (Read env st rid).events) ↔
      (org.ID = none ∨ org.ID = some "")) ∧
    (∀ m, Event.encode m ∉ (Read env st rid).events) := by
  by_cases hgone : org.ID = none ∨ org.ID = some ""
  · have hrun : Read env st rid =
        ⟨st1, "",
         [.authorizerRequested env.client.api,
          .configureClient ⟨.organizations, id.SubDomain⟩ ⟨a⟩,
          .remoteGet id.SubDomain id.Id, .markAsGone id],
         Outcome.ofErr (env.markAsGoneErr id)⟩ := by
      simp [Read, hp, organizationsClient_ok _ _ _ ha, hg, hgone]
    rw [hrun]
    simp [hgone]
  · have hrun : Read env st rid =
        ⟨st1, rid,
         [.authorizerRequested env.client.api,
          .configureClient ⟨.organizations, id.SubDomain⟩ ⟨a⟩,
          .remoteGet id.SubDomain id.Id],
         .err ("retrieving " ++ env.fmtIdVal id ++ ": " ++ e)⟩ := by
      simp [Read, hp, organizationsClient_ok _ _ _ ha, hg, hgone]
    rw [hrun]
    simp [hgone]

/-- Witness of C13: `Get` fails with a server error and an organization without an
ID; the resource is marked as gone. -/
theorem C13_read_gone_or_error_witness :
    (Read (memEnvOver (failingGetRemote ⟨none, none, none⟩ "500 Internal Server Error"))
        () "contoso/org1").events =
      [.authorizerRequested memClient.api,
       .configureClient ⟨.organizations, "contoso"⟩ ⟨"token"⟩,
       .remoteGet "contoso" "org1",
       .markAsGone ⟨"contoso", "org1"⟩] ∧
    (Read (memEnvOver (failingGetRemote ⟨none, none, none⟩ "500 Internal Server Error"))
        () "contoso/org1").outcome = .ok :=
  (C13_read_gone_or_error
    (memEnvOver (failingGetRemote ⟨none, none, none⟩ "500 Internal Server Error")) () ()
    "contoso/org1" ⟨"contoso", "org1"⟩ "token" ⟨none, none, none⟩
    "500 Internal Server Error" rfl rfl rfl).1 (Or.inl rfl)

/-- C14 at two successful `Get` responses: one without an `ID` and one with an
`ID` but without a `DisplayName`. For both, `Read` makes the `Get` call and then
dereferences nil; it encodes no state. -/
theorem C14_read_nil_dereference :
    (nilIdRemote.get () "contoso" "org1").1 = ⟨⟨none, some "Org", none⟩, none⟩ ∧
    Read (memEnvOver nilIdRemote) () "contoso/org1" =
      ⟨(), "contoso/org1",
       [.authorizerRequested iotCentralApi,
        .configureClient ⟨.organizations, "contoso"⟩ ⟨"token"⟩,
        .remoteGet "contoso" "org1"],
       .panic⟩ ∧
    (nilNameRemote.get () "contoso" "org1").1 = ⟨⟨some "org1", none, none⟩, none⟩ ∧
    Read (memEnvOver nilNameRemote) () "contoso/org1" =
      ⟨(), "contoso/org1",
       [.authorizerRequested iotCentralApi,
        .configureClient ⟨.organizations, "contoso"⟩ ⟨"token"⟩,
        .remoteGet "contoso" "org1"],
       .panic⟩ := by
  decide

/-- C15 fails as stated: on the in-memory remote, the configuration with the empty
sub-domain is created remotely without error, then `ParseBaseUrl` rejects the
sub-domain and `Create` returns that error; the organization exists remotely and
no resource ID was set. -/
theorem C15_create_error_after_remote_success :
    (memRemote.create [] "" "org1" (createModel ⟨"", "org1", "Org", ""⟩)).1.err = none ∧
    Create memEnv (planOf ⟨"", "org1", "Org", ""⟩ []) [] "" =
      ⟨[("", "org1", ⟨some "org1", some "Org", none⟩)], "",
       [.authorizerRequested iotCentralApi,
        .configureClient ⟨.organizations, ""⟩ ⟨"token"⟩,
        .remoteCreate "" "org1" ⟨none, some "Org", none⟩],
       .err "empty sub domain"⟩ := by
  decide

/-- C15, amended: for every configuration, if `Create` returns an error `e` then
either every remote create call it made failed, or the remote create call
succeeded and `e` is the error `ParseBaseUrl` returned for the sub-domain or
`NewNestedItemID` returned for the response's ID, and then the resource ID is not
set; and whenever the remote create call succeeds with a response that carries an
ID and `ParseBaseUrl` and `NewNestedItemID` accept the sub-domain and that ID,
`Create` sets the resource ID, once, and returns nil. -/
theorem C15_create_untracked_only_on_id_failure {σ : Type} (env : Env σ) (md : MetaData)
    (st : σ) (rid : String) :
    (∀ e, (Create env md st rid).outcome = .err e →
      (∀ sub i body, Event.remoteCreate sub i body ∈ (Create env md st rid).events →
        (env.remote.create st sub i body).1.err ≠ none) ∨
      (∃ state org st1,
        md.decode = .ok state ∧
        env.remote.create st state.SubDomain state.OrganizationId (createModel state)
          = (⟨org, none⟩, st1) ∧
        (env.ParseBaseUrl state.SubDomain = .error e ∨
          ∃ baseUrl orgID, env.ParseBaseUrl state.SubDomain = .ok baseUrl ∧
            org.ID = some orgID ∧
            env.NewNestedItemID baseUrl env.NestedItemTypeOrganization orgID = .error e) ∧
        (Create env md st rid).id = rid ∧
        ∀ nid, Event.setID nid ∉ (Create env md st rid).events)) ∧
    (∀ state a org st1 baseUrl orgID orgId,
      md.decode = .ok state →
      env.client.authorizerFunc env.client.api = .ok a →
      env.remote.create st state.SubDomain state.OrganizationId (createModel state)
        = (⟨org, none⟩, st1) →
      org.ID = some orgID →
      env.ParseBaseUrl state.SubDomain = .ok baseUrl →
      env.NewNestedItemID baseUrl env.NestedItemTypeOrganization orgID = .ok orgId →
      Create env md st rid =
        ⟨st1, env.idString orgId,
         [.authorizerRequested env.client.api,
          .configureClient ⟨.organizations, state.SubDomain⟩ ⟨a⟩,
          .remoteCreate state.SubDomain state.OrganizationId (createModel state),
          .setID orgId], .ok⟩) := by
  constructor
  · intro e he
    cases hd : md.decode with
    | error e1 => left; simp [Create, hd]
    | ok state =>
      cases ha : env.client.authorizerFunc env.client.api with
      | error e1 => left; simp [Create, hd, organizationsClient_error _ _ _ ha]
      | ok a =>
        rcases hc : env.remote.create st state.SubDomain state.OrganizationId
          (createModel state) with ⟨⟨org, _ | e1⟩, st1⟩
        · right
          refine ⟨state, org, st1, rfl, hc, ?_⟩
          cases hb : env.ParseBaseUrl state.SubDomain with
          | error e2 =>
            simp [Create, hd, organizationsClient_ok _ _ _ ha, hc, hb] at he ⊢
            exact he
          | ok baseUrl =>
            cases ho : org.ID with
            | none => simp [Create, hd, organizationsClient_ok _ _ _ ha, hc, hb, ho] at he
            | some orgID =>
              cases hn : env.NewNestedItemID baseUrl env.NestedItemTypeOrganization orgID with
              | error e2 =>
                simp [Create, hd, organizationsClient_ok _ _ _ ha, hc, hb, ho, hn] at he ⊢
                exact he
              | ok orgId =>
                simp [Create, hd, organizationsClient_ok _ _ _ ha, hc, hb, ho, hn] at he
        · left
          intro sub i body hmem
          have hcall : sub = state.SubDomain ∧ i = state.OrganizationId ∧
              body = createModel state := by
            simpa [Create, hd, organizationsClient_ok _ _ _ ha, hc] using hmem
          obtain ⟨h1, h2, h3⟩ := hcall
          subst h1 h2 h3
          simp [hc]
  · intro state a org st1 baseUrl orgID orgId hd ha hc ho hb hn
    simp [Create, hd, organizationsClient_ok _ _ _ ha, hc, hb, ho, hn]

/-- Witness of C15: on the in-memory remote the configuration with the empty
sub-domain fails after the remote call, and `(contoso, org1, Org, "")` is created
and tracked. -/
theorem C15_create_untracked_only_on_id_failure_witness :
    ((∀ sub i body, Event.remoteCreate sub i body ∈
          (Create memEnv (planOf ⟨"", "org1", "Org", ""⟩ []) [] "").events →
        (memEnv.remote.create [] sub i body).1.err ≠ none) ∨
      (∃ state org st1,
        (planOf ⟨"", "org1", "Org", ""⟩ []).decode = .ok state ∧
        memEnv.remote.create [] state.SubDomain state.OrganizationId (createModel state)
          = (⟨org, none⟩, st1) ∧
        (memEnv.ParseBaseUrl state.SubDomain = .error "empty sub domain" ∨
          ∃ baseUrl orgID, memEnv.ParseBaseUrl state.SubDomain = .ok baseUrl ∧
            org.ID = some orgID ∧
            memEnv.NewNestedItemID baseUrl memEnv.NestedItemTypeOrganization orgID
              = .error "empty sub domain") ∧
        (Create memEnv (planOf ⟨"", "org1", "Org", ""⟩ []) [] "").id = "" ∧
        ∀ nid, Event.setID nid ∉
          (Create memEnv (planOf ⟨"", "org1", "Org", ""⟩ []) [] "").events)) ∧
    Create memEnv (planOf ⟨"contoso", "org1", "Org", ""⟩ []) [] "" =
      ⟨[("contoso", "org1", ⟨some "org1", some "Org", none⟩)], "contoso/org1",
       [.authorizerRequested memEnv.client.api,
        .configureClient ⟨.organizations, "contoso"⟩ ⟨"token"⟩,
        .remoteCreate "contoso" "org1" ⟨none, some "Org", none⟩,
        .setID ⟨"contoso", "org1"⟩], .ok⟩ :=
  ⟨(C15_create_untracked_only_on_id_failure memEnv (planOf ⟨"", "org1", "Org", ""⟩ [])
      [] "").1 "empty sub domain" (by decide),
   (C15_create_untracked_only_on_id_failure memEnv
      (planOf ⟨"contoso", "org1", "Org", ""⟩ []) [] "").2
      ⟨"contoso", "org1", "Org", ""⟩ "token" ⟨some "org1", some "Org", none⟩
      [("contoso", "org1", ⟨some "org1", some "Org", none⟩)] "contoso" "org1"
      ⟨"contoso", "org1"⟩ rfl rfl rfl rfl rfl rfl⟩

/-- What `Exists` returns after a successful `Get`: true whenever the response's
`ID` is non-nil, the empty string included, and a nil dereference when it is nil. -/
theorem exists_on_success {σ : Type} (env : Env σ) (st st1 : σ) (stateID : String)
    (id : NestedItemId) (a : Authorizer) (resp : Organization)
    (hp : env.ParseNestedItemID stateID = .ok id)
    (ha : env.client.authorizerFunc env.client.api = .ok a)
    (hg : env.remote.get st id.SubDomain id.Id = (⟨resp, none⟩, st1)) :
    (IoTCentralOrganizationResource.Exists env st stateID).2 =
      (match resp.ID with
       | some _ => ExistsResult.value true
       | none => ExistsResult.panic) := by
  cases hi : resp.ID <;>
    simp [IoTCentralOrganizationResource.Exists, hp, organizationsClient_ok _ _ _ ha, hg, hi]

/-- C16 at two successful `Get` responses: when the response's `ID` is nil,
`Exists` dereferences nil instead of returning false; when the `ID` is the empty
string, `Exists` returns true, not false. -/
theorem C16_exists_check_wrong :
    (nilIdRemote.get () "contoso" "org1").1 = ⟨⟨none, some "Org", none⟩, none⟩ ∧
    IoTCentralOrganizationResource.Exists (memEnvOver nilIdRemote) () "contoso/org1" =
      ([.authorizerRequested iotCentralApi,
        .configureClient ⟨.organizations, "contoso"⟩ ⟨"token"⟩,
        .remoteGet "contoso" "org1"],
       .panic) ∧
    (memRemote.get [("contoso", "org1", ⟨some "", some "Org", none⟩)] "contoso" "org1").1
      = ⟨⟨some "", some "Org", none⟩, none⟩ ∧
    IoTCentralOrganizationResource.Exists memEnv
        [("contoso", "org1", ⟨some "", some "Org", none⟩)] "contoso/org1" =
      ([.authorizerRequested iotCentralApi,
        .configureClient ⟨.organizations, "contoso"⟩ ⟨"token"⟩,
        .remoteGet "contoso" "org1"],
       .value true) := by
  decide

/-- The order of the five member names of a marshalled `DirectLineSpeechChannel`. -/
theorem channelKeys_order :
    keyLess "channelName" "etag" = true ∧ keyLess "channelName" "location" = true ∧
    keyLess "channelName" "properties" = true ∧
    keyLess "channelName" "provisioningState" = true ∧
    keyLess "etag" "location" = true ∧ keyLess "etag" "properties" = true ∧
    keyLess "etag" "provisioningState" = true ∧ keyLess "location" "properties" = true ∧
    keyLess "location" "provisioningState" = true ∧
    keyLess "properties" "provisioningState" = true ∧
    keyLess "provisioningState" "properties" = false ∧
    keyLess "location" "etag" = false ∧ keyLess "properties" "etag" = false ∧
    keyLess "provisioningState" "etag" = false ∧ keyLess "properties" "location" = false ∧
    keyLess "provisioningState" "location" = false := by
  decide

/-- The whole output of `MarshalJSON` when the fields marshal: `props` is the JSON
the `Properties` field marshals to, if the field is non-nil. -/
theorem marshalJSON_output (float64 : String → String) (s : DirectLineSpeechChannel)
    (props : Option Json)
    (hprops : s.Properties.map (fun p => p.marshalled) = props.map Except.ok) :
    s.MarshalJSON float64 = .ok (.obj (
      [("channelName", .str "DirectLineSpeechChannel")] ++
      member "etag" (s.Etag.map .str) ++
      member "location" (s.Location.map .str) ++
      member "properties" (props.map (toInterface float64)) ++
      member "provisioningState" (s.ProvisioningState.map .str))) := by
  obtain ⟨P, E, L, S⟩ := s
  obtain ⟨k1, k2, k3, k4, k5, k6, k7, k8, k9, k10, k11, k12, k13, k14, k15, k16⟩ :=
    channelKeys_order
  cases P with
  | none =>
    cases props with
    | some v => simp at hprops
    | none =>
      cases E <;> cases L <;> cases S <;>
        simp [DirectLineSpeechChannel.MarshalJSON, marshalWrapper, unmarshalMap, marshalMap,
          member, toInterfaceMap, toInterface, setKey, k1, k2, k3, k4, k5, k6, k7, k8, k9,
          k10, k11, k12, k13, k14, k15, k16]
  | some p =>
    cases props with
    | none => simp at hprops
    | some v =>
      have hv : p.marshalled = .ok v := by simpa using hprops
      cases E <;> cases L <;> cases S <;>
        simp [DirectLineSpeechChannel.MarshalJSON, marshalWrapper, unmarshalMap, marshalMap,
          member, hv, toInterfaceMap, toInterface, setKey, k1, k2, k3, k4, k5, k6, k7, k8,
          k9, k10, k11, k12, k13, k14, k15, k16]

/-- C17: DirectLineSpeechChannel.MarshalJSON always emits the discriminator. For
every `DirectLineSpeechChannel` whose fields marshal without error (`Properties` is
nil, or marshals to the JSON value `props`), `MarshalJSON` returns a JSON object
`out` with distinct keys in which `channelName` is the string
`DirectLineSpeechChannel`; `etag`, `location` and `provisioningState` are present,
with the field's string, exactly when the field is non-nil; `properties` is
present, with the value the field marshals to as it comes back from the
`interface{}` map, exactly when `Properties` is non-nil; and no other key is
present. -/
theorem C17_marshalJSON_emits_discriminator (float64 : String → String)
    (s : DirectLineSpeechChannel) (props : Option Json)
    (hprops : s.Properties.map (fun p => p.marshalled) = props.map Except.ok) :
    ∃ out, s.MarshalJSON float64 = .ok (.obj out) ∧
      (out.map Prod.fst).Nodup ∧
      out.lookup "channelName" = some (.str "DirectLineSpeechChannel") ∧
      out.lookup "etag" = s.Etag.map .str ∧
      out.lookup "location" = s.Location.map .str ∧
      out.lookup "provisioningState" = s.ProvisioningState.map .str ∧
      out.lookup "properties" = props.map (toInterface float64) ∧
      (props.isSome = s.Properties.isSome) ∧
      (∀ k v, (k, v) ∈ out → k ∈ channelKeys) := by
  refine ⟨_, marshalJSON_output float64 s props hprops, ?_⟩
  have hsome : props.isSome = s.Properties.isSome := by
    cases hP : s.Properties <;> cases props <;> simp [hP] at hprops ⊢
  obtain ⟨P, E, L, S⟩ := s
  cases props <;> cases E <;> cases L <;> cases S <;>
    simp [member, List.lookup, channelKeys, hsome] <;>
    (try (intro k v hk; tauto))

/-- Witness of C17: `sampleChannel`, whose properties marshal to an object of two
members. -/
theorem C17_marshalJSON_emits_discriminator_witness :
    ∃ out, sampleChannel.MarshalJSON (fun n => n) = .ok (.obj out) ∧
      (out.map Prod.fst).Nodup ∧
      out.lookup "channelName" = some (.str "DirectLineSpeechChannel") ∧
      out.lookup "etag" = some (.str "W/1") ∧
      out.lookup "location" = none ∧
      out.lookup "provisioningState" = some (.str "Succeeded") ∧
      out.lookup "properties" =
        some (.obj [("cognitiveServiceRegion", .str "westus"), ("isEnabled", .bool true)]) ∧
      (true = sampleChannel.Properties.isSome) ∧
      (∀ k v, (k, v) ∈ out → k ∈ channelKeys) :=
  C17_marshalJSON_emits_discriminator (fun n => n) sampleChannel
    (some (.obj [("isEnabled", .bool true), ("cognitiveServiceRegion", .str "westus")])) rfl

end IotCentral
